import Mathlib

/-!
Verification development for the resolve-schema-values repository.

The embedding below follows the most complete variant of the resolver
(the stateful `SchemaResolver` class: `src/unnamed/part_002`, first
document), its merge module (`src/unnamed/part_007`), the shared
utilities (`src/src/utils.ts`, `src/src/schema-props.ts`) and, for the
standalone probe validator, `src/unnamed/part_004`.

Modelling conventions, stated once:
* JavaScript `undefined` is `Option.none`; JSON `null` is `Val.null`.
* JS numbers are modelled as `Rat` (claims only exercise integral
  values; float spelling never matters for them).
* In-place mutation of the data value (the resolver mutates the value
  it is given in two places: default injection during `if`-condition
  evaluation and required-property default injection in the object
  resolver) is modelled by threading the value: every resolver function
  returns, besides its result, the state of its input value after such
  mutations, together with a flag saying whether the returned result
  value is the very same mutable object as that input (JS reference
  aliasing on tree-shaped JSON data).
* Recursion is by explicit fuel (the source can diverge on crafted
  schemas); `none` means the fuel ran out or the JS code would have
  thrown (e.g. assigning a property on `undefined`).
* External collaborators are modelled where the source calls them:
  grapheme segmentation (`Intl.Segmenter`) as code-point count (exact
  on the ASCII data the claims use), `Date.parse` and general `RegExp`
  matching as documented stand-ins at their definitions (no claim
  exercises them), `$ref` expansion is omitted (no claim, no schema in
  this file carries `$ref`).
-/

namespace RSV

/-- A JSON-like data value. Object fields keep insertion order, as JS
objects do. -/
inductive Val where
  | null
  | bool (b : Bool)
  | num (q : Rat)
  | str (s : String)
  | arr (items : List Val)
  | obj (fields : List (String × Val))

/-- Validation error record: `{ message, path }` (a missing `path` is the
empty list). -/
structure VErr where
  message : String
  path : List String := []
  deriving DecidableEq

/-- Internal result of one resolver call: `Success` carries the resolved
value (possibly `undefined`), `Failure` a list of errors. The source also
stores `parent` and `key` on the result object; no code path reads them
back, so they are not carried here. -/
inductive Res where
  | success (value : Option Val)
  | failure (errors : List VErr)

/-- Outcome of the public entry point `resolveValues`:
`{ ok: true, value }` or `{ ok: false, errors }`. -/
inductive ResolveOutcome where
  | ok (value : Option Val)
  | err (errors : List VErr)

/-- The mutable instance state of the `SchemaResolver` class: the path
stack, the top-level error accumulator, the negation depth counter and
the `resolvedType` flag. -/
structure RState where
  stack : List String := []
  errors : List VErr := []
  negationDepth : Nat := 0
  resolvedType : Bool := false

/-- The `ResolveOptions` the resolver reads. `skipConditional` is set by
`evaluateCondition` but never read back in this variant; it is carried
for fidelity. A custom `getValue` is not modelled (all claims use the
default accessor `(obj, key) => obj?.[key]`). -/
structure Opts where
  skipValidation : Bool := false
  skipConditional : Bool := false

/-- Return bundle of a resolver function: the JS return value `r`, the
state `vin` of the function's value argument after in-place mutations,
the aliasing flag `ali` (true when `r` is a success whose value is the
same mutable object as `vin`), and the resolver state. -/
structure RV where
  r : Res
  vin : Option Val
  ali : Bool
  st : RState

/-! Character-list string helpers (the corresponding `String` library
functions recurse on byte positions, which the kernel cannot unfold;
these structural versions compute under `rfl` and `decide`). -/

/-- Split a character list at every occurrence of `sep` (always at
least one part, as JS `split` and `String.splitOn` behave). -/
def splitOnChar (sep : Char) : List Char → List (List Char)
  | [] => [[]]
  | c :: rest =>
    let parts := splitOnChar sep rest
    if c = sep then [] :: parts
    else
      match parts with
      | p :: ps => (c :: p) :: ps
      | [] => [[c]]

/-- String split on a single-character separator. -/
def strSplitOn (s : String) (sep : Char) : List String :=
  (splitOnChar sep s.data).map String.mk

/-- Parse a nonempty digit run. -/
def charsToNat? (cs : List Char) : Option Nat :=
  if cs ≠ [] && cs.all Char.isDigit then
    some (cs.foldl (fun acc c => acc * 10 + (c.toNat - 48)) 0)
  else none

/-- `startsWith` by character lists. -/
def strStartsWith (s pre : String) : Bool :=
  pre.data.isPrefixOf s.data

/-- Whitespace trim by character lists. -/
def strTrim (s : String) : String :=
  String.mk (((s.data.dropWhile Char.isWhitespace).reverse.dropWhile Char.isWhitespace).reverse)

/-! JS base semantics used by the source. -/

/-- JS truthiness of a value. -/
def valTruthy : Val → Bool
  | .null => false
  | .bool b => b
  | .num q => q ≠ 0
  | .str s => s ≠ ""
  | .arr _ => true
  | .obj _ => true

/-- Truthiness of a possibly-undefined value. -/
def optTruthy : Option Val → Bool
  | none => false
  | some v => valTruthy v

/-- JS strict equality `===`. Objects and arrays compare by reference;
schema literals and data values are distinct objects in every call the
source makes, so those cases are `false` here. -/
def jsStrictEq : Val → Val → Bool
  | .null, .null => true
  | .bool a, .bool b => a == b
  | .num a, .num b => a == b
  | .str a, .str b => a == b
  | _, _ => false

/-- Strict equality lifted to possibly-undefined values
(`undefined === undefined` is true). -/
def jsStrictEqU : Option Val → Option Val → Bool
  | none, none => true
  | some a, some b => jsStrictEq a b
  | _, _ => false

/-- JS `value != null` (loose): false exactly on `null` and `undefined`. -/
def jsNotNullish : Option Val → Bool
  | none => false
  | some .null => false
  | some _ => true

/-- Is this value a plain object (`isObject` in `utils`): object type,
not null, not an array. -/
def isObjectV : Option Val → Bool
  | some (.obj _) => true
  | _ => false

def isArrayV : Option Val → Bool
  | some (.arr _) => true
  | _ => false

/-- JS `typeof v === 'object'` together with truthiness, as used by
`result && typeof result === 'object'`: a (non-null) object or an array. -/
def truthyObjectLike : Option Val → Bool
  | some (.obj _) => true
  | some (.arr _) => true
  | _ => false

/-- Does the string spell a canonical array index (the only property
names under which JS arrays store elements)? -/
def canonicalIndex (k : String) : Option Nat :=
  match charsToNat? k.data with
  | some n => if toString n = k then some n else none
  | none => none

/-- The default `getValue` accessor `(obj, key) => obj?.[key]`. Object
lookup takes the first binding; arrays and strings answer canonical
numeric indices (other exotic properties such as `length` are not
modelled; no call site reads them). -/
def jsGet (v : Option Val) (k : String) : Option Val :=
  match v with
  | some (.obj fs) => fs.lookup k
  | some (.arr l) =>
    match canonicalIndex k with
    | some n => l.get? n
    | none => none
  | some (.str s) =>
    match canonicalIndex k with
    | some n => (s.data.get? n).map fun c => .str (String.mk [c])
    | none => none
  | _ => none

/-- `Object.keys(v)` on a defined value; `null`/`undefined` give `[]`
here because every call site guards with `value || {}` or a prior object
check. -/
def jsKeys (v : Option Val) : List String :=
  match v with
  | some (.obj fs) => fs.map Prod.fst
  | some (.arr l) => (List.range l.length).map toString
  | some (.str s) => (List.range s.length).map toString
  | _ => []

/-- `Object.entries(v)`: `none` when the source would throw
(`undefined`/`null`); primitives give `[]`. -/
def jsEntries (v : Option Val) : Option (List (String × Val)) :=
  match v with
  | none => none
  | some .null => none
  | some (.obj fs) => some fs
  | some (.arr l) => some (l.enum.map fun p => (toString p.1, p.2))
  | some (.str s) => some (s.data.enum.map fun p => (toString p.1, Val.str (String.mk [p.2])))
  | some _ => some []

/-- Property assignment on an object value: update in place when the key
exists (keeping its position), append otherwise — JS object semantics. -/
def objSet (fs : List (String × Val)) (k : String) (v : Val) : List (String × Val) :=
  if (fs.lookup k).isSome then
    fs.map fun p => if p.1 = k then (p.1, v) else p
  else
    fs ++ [(k, v)]

/-- JS `target[k] = v` on an arbitrary value, `none` when the assignment
would throw (strict-mode assignment on `undefined`, `null` or a
primitive). -/
def jsSetField (target : Option Val) (k : String) (v : Val) : Option Val :=
  match target with
  | some (.obj fs) => some (.obj (objSet fs k v))
  | some (.arr l) =>
    match canonicalIndex k with
    | some n =>
      if n < l.length then some (.arr (l.set n v))
      else if n = l.length then some (.arr (l ++ [v]))
      else none
    | none => none
  | _ => none

/-- Write a resolved child back into its container: models the JS
aliasing by which mutating a fetched child object mutates the parent.
Only fires when the key was present and the child is still defined. -/
def writeBack (container : Option Val) (k : String) (oldChild newChild : Option Val) : Option Val :=
  match oldChild, newChild with
  | some _, some nc =>
    match jsSetField container k nc with
    | some c2 => c2
    | none => container
  | _, _ => container

/-- Spread `{ ...base, ...v }`: own enumerable entries of `v` assigned
onto a copy of `base` (undefined and primitives contribute nothing). -/
def spreadInto (base : List (String × Val)) (v : Option Val) : List (String × Val) :=
  match v with
  | some (.obj fs) => fs.foldl (fun acc p => objSet acc p.1 p.2) base
  | some (.arr l) => (l.enum.map fun p => (toString p.1, p.2)).foldl
      (fun acc p => objSet acc p.1 p.2) base
  | some (.str s) => (s.data.enum.map fun p => (toString p.1, Val.str (String.mk [p.2]))).foldl
      (fun acc p => objSet acc p.1 p.2) base
  | _ => base

/-- Template-literal rendering `${v}` (JS `String(v)`), with fuel for
nested arrays. Claims only render primitives. -/
def valDisplay : Nat → Val → String
  | _, .null => "null"
  | _, .bool b => if b then "true" else "false"
  | _, .num q => if q.den = 1 then toString q.num else toString q
  | _, .str s => s
  | 0, .arr _ => ""
  | fuel + 1, .arr l => String.intercalate "," (l.map fun v => valDisplay fuel v)
  | _, .obj _ => "[object Object]"

/-- `JSON.stringify`, used by the `uniqueItems` check (fuelled; no claim
exercises `uniqueItems`, the definition is kept executable for the
uniform embedding). -/
def stringifyV : Nat → Val → String
  | _, .null => "null"
  | _, .bool b => if b then "true" else "false"
  | _, .num q => if q.den = 1 then toString q.num else toString q
  | _, .str s => "\"" ++ s ++ "\""
  | 0, .arr _ => ""
  | 0, .obj _ => ""
  | fuel + 1, .arr l => "[" ++ String.intercalate "," (l.map fun v => stringifyV fuel v) ++ "]"
  | fuel + 1, .obj fs => "\x7b" ++ String.intercalate ","
      (fs.map fun p => "\"" ++ p.1 ++ "\":" ++ stringifyV fuel p.2) ++ "\x7d"

/-- List update that appends when the index equals the length, as JS
array index assignment does while `deepAssign` copies a source array. -/
def listSetExt (l : List Val) (n : Nat) (v : Val) : List Val :=
  if n < l.length then l.set n v else l ++ [v]

/-- One key-value assignment step of the object branch of `deepAssign`:
recursive merge when the target value at the key is an object or array,
plain overwrite (or append) otherwise. -/
def deepAssignStep (rec : Val → Option Val → Option Val)
    (acc : Val) (p : String × Val) : Option Val :=
  match acc with
  | Val.obj afs =>
    match afs.lookup p.1 with
    | some tv =>
      match tv with
      | .obj _ => (rec tv (some p.2)).map fun m => Val.obj (objSet afs p.1 m)
      | .arr _ => (rec tv (some p.2)).map fun m => Val.obj (objSet afs p.1 m)
      | _ => some (Val.obj (objSet afs p.1 p.2))
    | none => some (Val.obj (afs ++ [p]))
  | other => some other

/-- `deepAssign` from the shared utilities, restricted to one source, as
every call site uses it. Fuelled recursion; `none` is exhausted fuel. -/
def deepAssignV : Nat → Val → Option Val → Option Val
  | 0, _, _ => (none : Option Val)
  | fuel + 1, target, src =>
    match target with
    | .obj fs =>
      match src with
      | some (.obj gs) => gs.foldlM (deepAssignStep (deepAssignV fuel)) (Val.obj fs)
      | some (.arr l) =>
        (l.enum.map fun p => (toString p.1, p.2)).foldlM
          (deepAssignStep (deepAssignV fuel)) (Val.obj fs)
      | _ => some target
    | .arr ts =>
      match src with
      | some (.arr ss) =>
        (ss.enum.foldlM (fun (acc : List Val) p =>
          if h : p.1 < ts.length then
            (deepAssignV fuel (ts.get ⟨p.1, h⟩) (some p.2)).map fun m =>
              listSetExt acc p.1 m
          else
            some (listSetExt acc p.1 p.2)) ts).map Val.arr
      | _ => some target
    | _ => src



/-! The schema data model (`types.ts`), as the keywords the engine reads. -/

/-- `type`: a single type name or a list of type names. -/
inductive SchType where
  | single (t : String)
  | multi (ts : List String)

/-- The fields of a schema node the engine reads. Fields that are only
documentation (`title`, `description`, …) carry no semantics in the
source and are omitted. `$ref` (read only under `additionalProperties`,
via the external expander) is omitted: no claim and no schema in this
file uses it. -/
structure SchemaCore (S : Type) where
  type : Option SchType := none
  default : Option Val := none
  constV : Option Val := none
  enum : Option (List Val) := none
  minimum : Option Rat := none
  maximum : Option Rat := none
  exclusiveMinimum : Option Rat := none
  exclusiveMaximum : Option Rat := none
  multipleOf : Option Rat := none
  minLength : Option Nat := none
  maxLength : Option Nat := none
  pattern : Option String := none
  format : Option String := none
  minItems : Option Nat := none
  maxItems : Option Nat := none
  uniqueItems : Option Bool := none
  items : Option (Sum S (List S)) := none
  additionalItems : Option (Sum Bool S) := none
  prefixItems : Option (List S) := none
  contains : Option S := none
  minProperties : Option Nat := none
  maxProperties : Option Nat := none
  required : Option (List String) := none
  properties : Option (List (String × S)) := none
  patternProperties : Option (List (String × S)) := none
  additionalProperties : Option (Sum Bool S) := none
  propertyNames : Option S := none
  dependentSchemas : Option (List (String × S)) := none
  ifS : Option S := none
  thenS : Option S := none
  elseS : Option S := none
  allOf : Option (List S) := none
  anyOf : Option (List S) := none
  oneOf : Option (List S) := none
  notS : Option S := none

/-- A schema node. -/
inductive Schema where
  | mk (core : SchemaCore Schema)

/-- The field record of a schema node. -/
def Schema.c : Schema → SchemaCore Schema
  | .mk core => core

/-- The empty schema `{}`. -/
def Schema.empty : Schema := .mk {}

/-- Render `schema.type` inside a template literal: `undefined`, the
single name, or the array joined by commas. -/
def typeDisplay : Option SchType → String
  | none => "undefined"
  | some (.single t) => t
  | some (.multi ts) => String.intercalate "," ts

/-- Render `schema.type.join(', ')` for the multi-type error message. -/
def typeJoinComma : List String → String :=
  String.intercalate ", "

/-! String formats (`isValidFormat` helpers). Each regex of the source
is an anchored, fixed-shape pattern, compiled here to an equivalent
executable check. -/

/-- `[0-9a-fA-F]` (the source patterns carry the `i` flag). -/
def isHexDigit (c : Char) : Bool :=
  c.isDigit || (let n := c.toLower.toNat; 97 ≤ n && n ≤ 102)

def allHex (s : String) : Bool := s.data.all isHexDigit

def allDigits (s : String) : Bool := s.data.all Char.isDigit

/-- The resolver uuid pattern
`^[0-9a-f]{8}-[0-9a-f]{4}-[0-9a-f]{4}-[0-9a-f]{12}$` (case-insensitive):
four hyphen-separated hex groups of lengths 8-4-4-12. -/
def uuidPattern4 (s : String) : Bool :=
  match strSplitOn s '-' with
  | [a, b, c, d] =>
    a.length = 8 && b.length = 4 && c.length = 4 && d.length = 12 &&
      allHex a && allHex b && allHex c && allHex d
  | _ => false

/-- The standalone validator uuid pattern
`^[0-9a-f]{8}-[0-9a-f]{4}-[0-9a-f]{4}-[0-9a-f]{4}-[0-9a-f]{12}$`
(case-insensitive): the canonical five-group 8-4-4-4-12 shape. -/
def uuidPattern5 (s : String) : Bool :=
  match strSplitOn s '-' with
  | [a, b, c, d, e] =>
    a.length = 8 && b.length = 4 && c.length = 4 && d.length = 4 && e.length = 12 &&
      allHex a && allHex b && allHex c && allHex d && allHex e
  | _ => false

/-- `^\d{4}-\d{2}-\d{2}$`. -/
def datePattern (s : String) : Bool :=
  match strSplitOn s '-' with
  | [a, b, c] =>
    a.length = 4 && b.length = 2 && c.length = 2 && allDigits a && allDigits b && allDigits c
  | _ => false

/-- `^\d{2}:\d{2}:\d{2}$`. -/
def timePattern (s : String) : Bool :=
  match strSplitOn s ':' with
  | [a, b, c] =>
    a.length = 2 && b.length = 2 && c.length = 2 && allDigits a && allDigits b && allDigits c
  | _ => false

/-- A character admitted by `[^\s@]`. -/
def emailChar (c : Char) : Bool := !c.isWhitespace && c != '@'

/-- `^[^\s@]+@[^\s@]+\.[^\s@]+$`: one `@`, a nonempty local part, and
a domain containing a dot with nonempty text on both sides; no
whitespace or second `@` anywhere. -/
def emailPattern (s : String) : Bool :=
  match strSplitOn s '@' with
  | [p1, p2] =>
    p1.length > 0 && p1.data.all emailChar && p2.data.all emailChar &&
      ((p2.data.drop 1).dropLast.contains '.')
  | _ => false

/-- `^(\d{1,3}\.){3}\d{1,3}$`: four dot-separated runs of one to three
digits. -/
def ipv4Pattern (s : String) : Bool :=
  match strSplitOn s '.' with
  | [a, b, c, d] =>
    [a, b, c, d].all fun p => 1 ≤ p.length && p.length ≤ 3 && allDigits p
  | _ => false

/-- Each dot-separated component, parsed as by `parseInt(num, 10)`, is at
most 255 (the pattern already forces digits, so ≥ 0 holds). -/
def ipv4Octets (s : String) : Bool :=
  (strSplitOn s '.').all fun p => (charsToNat? p.data).getD 256 ≤ 255

/-- Modelled from the spec: `format: date-time` uses `Date.parse`, which
"depends only on the input string"; modelled as an ISO `YYYY-MM-DD`
prefix check. No claim exercises `date-time`. -/
def dateParseValid (s : String) : Bool :=
  datePattern (String.mk (s.data.take 10))

/-- Modelled from the spec: the `pattern` keyword and `patternProperties`
keys go through the external JS `RegExp` engine (Unicode mode). No claim
carries `pattern` or `patternProperties`, so the stand-in accepts
everything; every theorem below is insensitive to this choice. -/
def regexTest (_pattern : String) (_s : String) : Bool := true

/-- Modelled from the spec: the Grapheme Length Service counts
user-perceived characters; on the ASCII strings the claims use, one
grapheme is one code point, so the count is the code-point length. -/
def getSegmentsLength (s : String) : Nat := s.length

/-- `isValidFormat` of the resolver (`part_002`, also `src/resolve.ts`):
date-time, date, time, email, ipv4 (pattern plus octet bound) and uuid
(four groups); unknown formats pass. -/
def isValidFormat (value : String) (format : String) : Bool :=
  if format = "date-time" then dateParseValid value
  else if format = "date" then datePattern value
  else if format = "time" then timePattern value
  else if format = "email" then emailPattern value
  else if format = "ipv4" then ipv4Pattern value && ipv4Octets value
  else if format = "uuid" then uuidPattern4 value
  else true

/-! Shared utilities (`utils.ts`, `schema-props.ts`). -/

/-- `isComposition`: the schema carries any of allOf / anyOf / oneOf /
not (arrays and objects are always truthy when present). -/
def isComposition (s : Schema) : Bool :=
  s.c.allOf.isSome || s.c.anyOf.isSome || s.c.oneOf.isSome || s.c.notS.isSome

/-- `getValueType`: the first declared type the value structurally fits,
in the fixed order null, array, object, boolean, string, number,
integer. As in the source, `integer` accepts any JS number here. -/
def getValueType (value : Option Val) (types : List String) : Option String :=
  if (match value with | some .null => true | _ => false) && types.contains "null" then some "null"
  else if isArrayV value && types.contains "array" then some "array"
  else if isObjectV value && types.contains "object" then some "object"
  else if (match value with | some (.bool _) => true | _ => false) && types.contains "boolean" then some "boolean"
  else if (match value with | some (.str _) => true | _ => false) && types.contains "string" then some "string"
  else if (match value with | some (.num _) => true | _ => false) && types.contains "number" then some "number"
  else if (match value with | some (.num _) => true | _ => false) && types.contains "integer" then some "integer"
  else none

/-- The string-valued keyword groups of `schema-props.ts`, keyed by the
type name; unknown names give the empty group. -/
def schemaPropsFor (t : String) : List String :=
  if t = "string" then
    ["maxLength", "minLength", "pattern", "format", "contentMediaType", "contentEncoding"]
  else if t = "number" || t = "integer" then
    ["multipleOf", "maximum", "exclusiveMaximum", "minimum", "exclusiveMinimum"]
  else if t = "array" then
    ["items", "additionalItems", "maxItems", "minItems", "uniqueItems", "contains",
      "maxContains", "minContains"]
  else if t = "object" then
    ["maxProperties", "minProperties", "required", "properties", "patternProperties",
      "additionalProperties", "dependencies", "propertyNames"]
  else []

/-- Keep an optional field only when its keyword survives the filter. -/
def keepOpt (b : Bool) (v : Option α) : Option α := if b then v else none

/-- `filterProps`: keep the base keywords plus the keywords of the
resolved concrete type, drop everything else. Note two quirks carried
from the source lists: `prefixItems` is not in the array group and
`dependentSchemas` is not in the object group, so both are always
dropped. -/
def filterProps (s : Schema) (valueType : String) : Schema :=
  let keep : List String := schemaPropsFor valueType
  let k : String → Bool := fun n => keep.contains n
  let c := s.c
  Schema.mk { c with
    minimum := keepOpt (k "minimum") c.minimum
    maximum := keepOpt (k "maximum") c.maximum
    exclusiveMinimum := keepOpt (k "exclusiveMinimum") c.exclusiveMinimum
    exclusiveMaximum := keepOpt (k "exclusiveMaximum") c.exclusiveMaximum
    multipleOf := keepOpt (k "multipleOf") c.multipleOf
    minLength := keepOpt (k "minLength") c.minLength
    maxLength := keepOpt (k "maxLength") c.maxLength
    pattern := keepOpt (k "pattern") c.pattern
    format := keepOpt (k "format") c.format
    minItems := keepOpt (k "minItems") c.minItems
    maxItems := keepOpt (k "maxItems") c.maxItems
    uniqueItems := keepOpt (k "uniqueItems") c.uniqueItems
    items := keepOpt (k "items") c.items
    additionalItems := keepOpt (k "additionalItems") c.additionalItems
    prefixItems := keepOpt (k "prefixItems") c.prefixItems
    contains := keepOpt (k "contains") c.contains
    minProperties := keepOpt (k "minProperties") c.minProperties
    maxProperties := keepOpt (k "maxProperties") c.maxProperties
    required := keepOpt (k "required") c.required
    properties := keepOpt (k "properties") c.properties
    patternProperties := keepOpt (k "patternProperties") c.patternProperties
    additionalProperties := keepOpt (k "additionalProperties") c.additionalProperties
    propertyNames := keepOpt (k "propertyNames") c.propertyNames
    dependentSchemas := keepOpt (k "dependentSchemas") c.dependentSchemas }

/-! The schema merger (`part_007`: `mergeArrays`, `deepMerge`,
`mergeTypes`, `mergeSchemas`). -/

/-- First-occurrence deduplication, the order of `[...new Set(xs)]`. -/
def dedupBy (eq : α → α → Bool) (xs : List α) : List α :=
  xs.foldl (fun acc x => if acc.any (fun y => eq y x) then acc else acc ++ [x]) []

/-- `mergeArrays` on enum members: `Set` deduplicates primitives by value
and objects by reference; `jsStrictEq` is false on objects and arrays,
so distinct object members are all kept, as in JS. -/
def mergeValArrays (a b : Option (List Val)) : List Val :=
  dedupBy jsStrictEq (a.getD [] ++ b.getD [])

/-- `mergeArrays` on string lists (`required`, type unions). -/
def mergeStrArrays (a b : Option (List String)) : List String :=
  dedupBy (fun x y => x = y) (a.getD [] ++ b.getD [])

/-- `mergeArrays` on sub-schema lists: `Set` deduplicates only literally
identical references; the embedding has no aliasing, so this is plain
concatenation. -/
def mergeSchemaArrays (a b : Option (List Schema)) : List Schema :=
  a.getD [] ++ b.getD []

/-- Options of `mergeSchemas`: `mergeType` turns on type merging,
`isAllOf` selects intersection (conjunction) over union. -/
structure MOpts where
  mergeType : Option Bool := none
  isAllOf : Bool := false

/-- `[].concat(schema.type || [])`. -/
def schTypeList : Option SchType → List String
  | none => []
  | some (.single t) => [t]
  | some (.multi ts) => ts

/-- `hasNumberTypes`. -/
def hasNumberTypes (ts : List String) : Bool :=
  ts.any fun t => t = "number" || t = "integer"

/-- JS `schema1.type !== schema2.type`: strings compare by value, arrays
by reference — two type arrays are distinct objects at every call site,
so any array operand makes the comparison unequal. -/
def typesStrictNe : SchType → SchType → Bool
  | .single a, .single b => a ≠ b
  | _, _ => true

/-- `mergeTypes`: intersection in `allOf` mode, with the numeric-tower
collapse to `integer` when the intersection is empty but both sides
carry a numeric member, and a merge error otherwise; union elsewhere. -/
def mergeTypes (s1 s2 : Schema) (opts : MOpts) : Sum SchType (List VErr) :=
  let types1 := schTypeList s1.c.type
  let types2 := schTypeList s2.c.type
  if opts.isAllOf then
    let inter := types1.filter fun t => types2.contains t
    match inter with
    | [t] => .inl (.single t)
    | [] =>
      if hasNumberTypes types1 && hasNumberTypes types2 then .inl (.single "integer")
      else .inr [{ message := "No valid types satisfy both schemas", path := ["merge"] }]
    | _ => .inl (.multi inter)
  else
    .inl (.multi (mergeStrArrays (some types1) (some types2)))

/-- `[].concat(x)` over the shapes `const` and `enum` take inside
`isSameConst` and the collapse branch: `undefined` gives `[undefined]`,
an array spreads, anything else wraps. -/
def concatOf : Option (Sum Val (List Val)) → List (Option Val)
  | none => [none]
  | some (.inl (.arr l)) => l.map some
  | some (.inl v) => [some v]
  | some (.inr l) => l.map some

/-- `isSameConst`: both sides concat to singletons with strictly equal
heads (`undefined === undefined` holds, which the source reaches when
one side has neither const nor enum). -/
def isSameConst (v1 v2 : Option (Sum Val (List Val))) : Bool :=
  match concatOf v1, concatOf v2 with
  | [a], [b] => jsStrictEqU a b
  | _, _ => false

/-- The object spread `{ ...schema1, ...schema2 }` on schema nodes:
field-wise, a field of `schema2` wins when present. -/
def spreadSchema (s1 s2 : Schema) : Schema :=
  Schema.mk {
    type := s2.c.type <|> s1.c.type
    default := s2.c.default <|> s1.c.default
    constV := s2.c.constV <|> s1.c.constV
    enum := s2.c.enum <|> s1.c.enum
    minimum := s2.c.minimum <|> s1.c.minimum
    maximum := s2.c.maximum <|> s1.c.maximum
    exclusiveMinimum := s2.c.exclusiveMinimum <|> s1.c.exclusiveMinimum
    exclusiveMaximum := s2.c.exclusiveMaximum <|> s1.c.exclusiveMaximum
    multipleOf := s2.c.multipleOf <|> s1.c.multipleOf
    minLength := s2.c.minLength <|> s1.c.minLength
    maxLength := s2.c.maxLength <|> s1.c.maxLength
    pattern := s2.c.pattern <|> s1.c.pattern
    format := s2.c.format <|> s1.c.format
    minItems := s2.c.minItems <|> s1.c.minItems
    maxItems := s2.c.maxItems <|> s1.c.maxItems
    uniqueItems := s2.c.uniqueItems <|> s1.c.uniqueItems
    items := s2.c.items <|> s1.c.items
    additionalItems := s2.c.additionalItems <|> s1.c.additionalItems
    prefixItems := s2.c.prefixItems <|> s1.c.prefixItems
    contains := s2.c.contains <|> s1.c.contains
    minProperties := s2.c.minProperties <|> s1.c.minProperties
    maxProperties := s2.c.maxProperties <|> s1.c.maxProperties
    required := s2.c.required <|> s1.c.required
    properties := s2.c.properties <|> s1.c.properties
    patternProperties := s2.c.patternProperties <|> s1.c.patternProperties
    additionalProperties := s2.c.additionalProperties <|> s1.c.additionalProperties
    propertyNames := s2.c.propertyNames <|> s1.c.propertyNames
    dependentSchemas := s2.c.dependentSchemas <|> s1.c.dependentSchemas
    ifS := s2.c.ifS <|> s1.c.ifS
    thenS := s2.c.thenS <|> s1.c.thenS
    elseS := s2.c.elseS <|> s1.c.elseS
    allOf := s2.c.allOf <|> s1.c.allOf
    anyOf := s2.c.anyOf <|> s1.c.anyOf
    oneOf := s2.c.oneOf <|> s1.c.oneOf
    notS := s2.c.notS <|> s1.c.notS }

mutual

/-- Generic `deepMerge` applied to two schema nodes (the source treats
them as plain dictionaries): scalar leaves are last-write-wins, array
leaves are unioned, object leaves recurse. Only `patternProperties` and
`dependentSchemas` merging reaches this; no claim exercises it. -/
def deepMergeSchema : Nat → Schema → Schema → Option Schema
  | 0, _, _ => none
  | fuel + 1, a, b => do
    let props ← deepMergeSchemaMap fuel a.c.properties b.c.properties
    let pprops ← deepMergeSchemaMap fuel a.c.patternProperties b.c.patternProperties
    let dprops ← deepMergeSchemaMap fuel a.c.dependentSchemas b.c.dependentSchemas
    let nt ← match a.c.notS, b.c.notS with
      | some x, some y => (deepMergeSchema fuel x y).map some
      | x, y => pure (y <|> x)
    let it ← match a.c.items, b.c.items with
      | some (.inl x), some (.inl y) => (deepMergeSchema fuel x y).map fun m => some (.inl m)
      | x, y => pure (y <|> x)
    pure (Schema.mk { (spreadSchema a b).c with
      enum := match a.c.enum, b.c.enum with
        | some x, some y => some (mergeValArrays (some x) (some y))
        | x, y => y <|> x
      required := match a.c.required, b.c.required with
        | some x, some y => some (mergeStrArrays (some x) (some y))
        | x, y => y <|> x
      allOf := match a.c.allOf, b.c.allOf with
        | some x, some y => some (x ++ y)
        | x, y => y <|> x
      anyOf := match a.c.anyOf, b.c.anyOf with
        | some x, some y => some (x ++ y)
        | x, y => y <|> x
      oneOf := match a.c.oneOf, b.c.oneOf with
        | some x, some y => some (x ++ y)
        | x, y => y <|> x
      properties := props
      patternProperties := pprops
      dependentSchemas := dprops
      notS := nt
      items := it })

/-- `deepMerge` over a string-keyed map of schemas. -/
def deepMergeSchemaMap : Nat → Option (List (String × Schema)) → Option (List (String × Schema)) →
    Option (Option (List (String × Schema)))
  | 0, _, _ => none
  | fuel + 1, a, b =>
    match a, b with
    | none, none => some none
    | some x, none => some (some x)
    | none, some y => some (some y)
    | some x, some y =>
      (y.foldlM (fun (acc : List (String × Schema)) (p : String × Schema) =>
        match acc.lookup p.1 with
        | some av => (deepMergeSchema fuel av p.2).map fun m =>
            acc.map fun (q : String × Schema) => if q.1 = p.1 then (q.1, m) else q
        | none => some (acc ++ [p])) x).map some

/-- `mergeSchemas` (`part_007`): spread both nodes, then apply the
keyword-specific rules. An error return (`.inr`) happens only in
conjunction mode when the type intersection fails; recursive calls use
the default options and never produce it. -/
def mergeSchemas : Nat → MOpts → Schema → Schema → Option (Sum Schema (List VErr))
  | 0, _, _, _ => none
  | fuel + 1, opts, s1, s2 => do
    let base := spreadSchema s1 s2
    let typeField ←
      if opts.mergeType = some true then
        match s1.c.type, s2.c.type with
        | some t1, some t2 =>
          if typesStrictNe t1 t2 then
            match mergeTypes s1 s2 opts with
            | .inr errs => return .inr errs
            | .inl t => pure (some t)
          else pure base.c.type
        | _, _ => pure base.c.type
      else pure base.c.type
    let hasConstOrEnum :=
      optTruthy (s1.c.enum.map .arr) || optTruthy (s2.c.enum.map .arr) ||
      (s1.c.constV.map valTruthy).getD false || (s2.c.constV.map valTruthy).getD false
    let constEnum : Option Val × Option (List Val) :=
      if hasConstOrEnum then
        if isSameConst (s1.c.constV.map .inl) (s2.c.enum.map .inr) ||
            isSameConst (s2.c.constV.map .inl) (s1.c.enum.map .inr) then
          let value : Option (Sum Val (List Val)) :=
            if (s1.c.constV.map valTruthy).getD false then s1.c.constV.map .inl
            else if (s2.c.constV.map valTruthy).getD false then s2.c.constV.map .inl
            else if optTruthy (s1.c.enum.map .arr) then s1.c.enum.map .inr
            else if optTruthy (s2.c.enum.map .arr) then s2.c.enum.map .inr
            else none
          (((concatOf value).headD none), none)
        else
          (base.c.constV, some (mergeValArrays s1.c.enum s2.c.enum))
      else if s1.c.constV.isSome || s2.c.constV.isSome then
        (s2.c.constV <|> s1.c.constV, base.c.enum)
      else (base.c.constV, base.c.enum)
    let itemsField : Option (Option (Sum Schema (List Schema))) ←
      if s1.c.items.isSome || s2.c.items.isSome then
        match s2.c.items with
        | some i2 =>
          match s1.c.items, i2 with
          | some (.inl a), .inl b =>
            match ← mergeSchemas fuel {} a b with
            | .inl m => pure (some (some (.inl m)))
            | .inr _ => pure (some s2.c.items)
          | some _, _ =>
            -- A tuple operand is spread as a plain object by the source,
            -- producing a degenerate node; unreachable from any claim,
            -- modelled as the second operand winning.
            pure (some s2.c.items)
          | none, _ => pure (some s2.c.items)
        | none => pure (some s1.c.items)
      else pure (some base.c.items)
    let some itemsField := itemsField | none
    let requiredField :=
      if s1.c.required.isSome || s2.c.required.isSome then
        some (mergeStrArrays s1.c.required s2.c.required)
      else base.c.required
    let propsField ←
      if s1.c.properties.isSome || s2.c.properties.isSome then do
        let p1 := s1.c.properties.getD []
        let p2 := s2.c.properties.getD []
        let allKeys := dedupBy (fun a b => a = b) (p1.map Prod.fst ++ p2.map Prod.fst)
        let merged ← allKeys.mapM fun k => do
          match p1.lookup k, p2.lookup k with
          | some a, some b =>
            match ← mergeSchemas fuel {} a b with
            | .inl m => pure (k, m)
            | .inr _ => pure (k, b)
          | some a, none => pure (k, a)
          | none, some b => pure (k, b)
          | none, none => pure (k, Schema.empty)
        pure (some merged)
      else pure base.c.properties
    let pattField ←
      if s1.c.patternProperties.isSome || s2.c.patternProperties.isSome then
        deepMergeSchemaMap fuel (some (s1.c.patternProperties.getD []))
          (some (s2.c.patternProperties.getD []))
      else pure base.c.patternProperties
    let addlField ←
      if s1.c.additionalProperties.isSome || s2.c.additionalProperties.isSome then
        match s1.c.additionalProperties, s2.c.additionalProperties with
        | some (.inr a), some (.inr b) => do
          match ← mergeSchemas fuel {} a b with
          | .inl m => pure (some (Sum.inr m))
          | .inr _ => pure (some (Sum.inr b))
        | _, _ => pure (s2.c.additionalProperties <|> s1.c.additionalProperties)
      else pure base.c.additionalProperties
    let depField ←
      if s1.c.dependentSchemas.isSome || s2.c.dependentSchemas.isSome then
        deepMergeSchemaMap fuel (some (s1.c.dependentSchemas.getD []))
          (some (s2.c.dependentSchemas.getD []))
      else pure base.c.dependentSchemas
    let (ifField, thenField, elseField) :=
      if s1.c.ifS.isSome || s2.c.ifS.isSome then
        (s2.c.ifS <|> s1.c.ifS, s2.c.thenS <|> s1.c.thenS, s2.c.elseS <|> s1.c.elseS)
      else (base.c.ifS, base.c.thenS, base.c.elseS)
    let notField ←
      if s1.c.notS.isSome || s2.c.notS.isSome then do
        match ← mergeSchemas fuel {} (s1.c.notS.getD Schema.empty) (s2.c.notS.getD Schema.empty) with
        | .inl m => pure (some m)
        | .inr _ => pure base.c.notS
      else pure base.c.notS
    let allOfField :=
      if s1.c.allOf.isSome || s2.c.allOf.isSome then
        some (mergeSchemaArrays s1.c.allOf s2.c.allOf)
      else base.c.allOf
    let anyOfField :=
      if s1.c.anyOf.isSome || s2.c.anyOf.isSome then
        some (mergeSchemaArrays s1.c.anyOf s2.c.anyOf)
      else base.c.anyOf
    let oneOfField :=
      if s1.c.oneOf.isSome || s2.c.oneOf.isSome then
        some (mergeSchemaArrays s1.c.oneOf s2.c.oneOf)
      else base.c.oneOf
    pure (.inl (Schema.mk { base.c with
      type := typeField
      constV := constEnum.1
      enum := constEnum.2
      minimum := s2.c.minimum <|> s1.c.minimum
      maximum := s2.c.maximum <|> s1.c.maximum
      exclusiveMinimum := s2.c.exclusiveMinimum <|> s1.c.exclusiveMinimum
      exclusiveMaximum := s2.c.exclusiveMaximum <|> s1.c.exclusiveMaximum
      multipleOf := s2.c.multipleOf <|> s1.c.multipleOf
      minLength := s2.c.minLength <|> s1.c.minLength
      maxLength := s2.c.maxLength <|> s1.c.maxLength
      pattern := s2.c.pattern <|> s1.c.pattern
      format := s2.c.format <|> s1.c.format
      minItems := s2.c.minItems <|> s1.c.minItems
      maxItems := s2.c.maxItems <|> s1.c.maxItems
      uniqueItems := s2.c.uniqueItems <|> s1.c.uniqueItems
      items := itemsField
      minProperties := s2.c.minProperties <|> s1.c.minProperties
      maxProperties := s2.c.maxProperties <|> s1.c.maxProperties
      required := requiredField
      properties := propsField
      patternProperties := pattField
      additionalProperties := addlField
      propertyNames := base.c.propertyNames
      dependentSchemas := depField
      ifS := ifField
      thenS := thenField
      elseS := elseField
      allOf := allOfField
      anyOf := anyOfField
      oneOf := oneOfField
      notS := notField }))

end

/-- The resolver-facing merge: the resolver never passes
`mergeType: true`, so the error case cannot arise there; were it to, the
source would treat the error object as a schema with no keywords, which
is what `Schema.empty` is. -/
def mergeS (fuel : Nat) (opts : MOpts) (s1 s2 : Schema) : Option Schema := do
  match ← mergeSchemas fuel opts s1 s2 with
  | .inl m => pure m
  | .inr _ => pure Schema.empty


/-! Resolver state helpers and the leaf (non-recursive) type resolvers
(`part_002`, first document). -/

/-- `stack.join('.')`. -/
def joinDot (stack : List String) : String := String.intercalate "." stack

/-- `isInside(keys)`: some key of `keys` is on the path stack. -/
def isInside (st : RState) (keys : List String) : Bool :=
  keys.any fun k => st.stack.contains k

/-- `isInsideNegation`. -/
def isInsideNegation (st : RState) : Bool := st.negationDepth > 0

/-- Push a path segment. -/
def pushStack (st : RState) (k : String) : RState := { st with stack := st.stack ++ [k] }

/-- Pop a path segment (`Array.prototype.pop`: a no-op on the empty
stack). -/
def popStack (st : RState) : RState := { st with stack := st.stack.dropLast }

/-- The `failure` helper of the resolver: prefix every error with the
current path stack, and append the batch to the top-level accumulator
unless the stack is inside `if`, `contains` or `oneOf` — except that a
batch raised when the stack is exactly `['oneOf']` is still recorded. -/
def mkFailure (errs : List VErr) (st : RState) : Res × RState :=
  let errsP := errs.map fun e => { e with path := st.stack ++ e.path }
  let st1 :=
    if !(isInside st ["if", "contains", "oneOf"]) then
      { st with errors := st.errors ++ errsP }
    else st
  let st2 :=
    if isInside st ["oneOf"] && joinDot st.stack = "oneOf" then
      { st1 with errors := st1.errors ++ errsP }
    else st1
  (.failure errsP, st2)

/-- `${key}` in an error message (`undefined` when absent). -/
def keyDisplay (k : Option String) : String := k.getD "undefined"

/-- `${q}` for a JS number in an error message (claims only render
integral numbers, where JS and this rendering agree). -/
def ratDisplay (q : Rat) : String :=
  if q.den = 1 then toString q.num else toString q

/-- JS numeric coercion for comparisons (`none` is NaN). Strings are
modelled only as far as trimmed-empty and digit runs; no claim compares
a string against a numeric bound. -/
def jsToNumber : Val → Option Rat
  | .null => some 0
  | .bool b => some (if b then 1 else 0)
  | .num q => some q
  | .str s => if strTrim s = "" then some 0 else ((charsToNat? (strTrim s).data).map fun n => (n : Rat))
  | .arr _ => none
  | .obj _ => none

/-- `v < q` under JS coercion (false when NaN). -/
def jsLtNum (v : Val) (q : Rat) : Bool := ((jsToNumber v).map fun x => decide (x < q)).getD false

/-- `v > q` under JS coercion. -/
def jsGtNum (v : Val) (q : Rat) : Bool := ((jsToNumber v).map fun x => decide (q < x)).getD false

/-- `v <= q` under JS coercion. -/
def jsLeNum (v : Val) (q : Rat) : Bool := ((jsToNumber v).map fun x => decide (x ≤ q)).getD false

/-- `v >= q` under JS coercion. -/
def jsGeNum (v : Val) (q : Rat) : Bool := ((jsToNumber v).map fun x => decide (q ≤ x)).getD false

/-- Truncation toward zero, as JS `%` uses. -/
def ratTrunc (q : Rat) : Int := if 0 ≤ q then q.floor else q.ceil

/-- `value % m !== 0` under JS semantics: true on NaN operands (and on a
zero modulus, where JS yields NaN). -/
def jsModNonzero (v : Val) (m : Rat) : Bool :=
  match jsToNumber v with
  | none => true
  | some a => if m = 0 then true else a - m * (ratTrunc (a / m) : Rat) ≠ 0

/-- `Number.isInteger`. -/
def isIntegerJS : Val → Bool
  | .num q => q.den = 1
  | _ => false

/-- String coercion of a value handed to a string check (`getSegments`,
pattern and format tests coerce non-strings); the nested-array fuel is a
fixed bound, irrelevant to every claim. -/
def strOfVal : Val → String
  | .str s => s
  | v => valDisplay 8 v

/-- `resolveNull`. -/
def resolveNull (_schema : Schema) (value : Option Val) (st : RState) : Option RV :=
  match value with
  | none => some ⟨.success (some .null), value, false, st⟩
  | some .null => some ⟨.success (some .null), value, false, st⟩
  | some _ =>
    let (r, st) := mkFailure [{ message := "Value must be null" }] st
    some ⟨r, value, false, st⟩

/-- `resolveBoolean`. -/
def resolveBoolean (schema : Schema) (value : Option Val) (parent : Schema)
    (key : Option String) (st : RState) : Option RV :=
  let required := (parent.c.required).getD []
  match value with
  | none =>
    some ⟨.success (some (schema.c.default.getD (.bool false))), value, false, st⟩
  | some .null =>
    some ⟨.success (some (schema.c.default.getD (.bool false))), value, false, st⟩
  | some v =>
    match v with
    | .bool _ => some ⟨.success (some v), value, true, st⟩
    | _ =>
      -- value != null holds here, so the disjunct with `required` is moot
      if jsNotNullish value ||
          ((key.map fun k => required.contains k).getD false && !isInsideNegation st) then
        let (r, st) := mkFailure [{ message := "Value must be a boolean" }] st
        some ⟨r, value, false, st⟩
      else
        some ⟨.success (some v), value, true, st⟩

/-- The shared numeric constraint checks of `resolveInteger` and
`resolveNumber` (each written out in the source; identical text). -/
def numericConstraintErrors (schema : Schema) (v : Val) : List VErr :=
  (if (schema.c.minimum.map fun q => jsLtNum v q).getD false then
    [{ message := "Value must be >= " ++ ratDisplay (schema.c.minimum.getD 0) : VErr }] else []) ++
  (if (schema.c.maximum.map fun q => jsGtNum v q).getD false then
    [{ message := "Value must be <= " ++ ratDisplay (schema.c.maximum.getD 0) : VErr }] else []) ++
  (if (schema.c.exclusiveMinimum.map fun q => jsLeNum v q).getD false then
    [{ message := "Value must be > " ++ ratDisplay (schema.c.exclusiveMinimum.getD 0) : VErr }] else []) ++
  (if (schema.c.exclusiveMaximum.map fun q => jsGeNum v q).getD false then
    [{ message := "Value must be < " ++ ratDisplay (schema.c.exclusiveMaximum.getD 0) : VErr }] else []) ++
  (if (schema.c.multipleOf.map fun m => jsModNonzero v m).getD false then
    [{ message := "Value must be a multiple of " ++ ratDisplay (schema.c.multipleOf.getD 0) : VErr }] else [])

/-- `resolveInteger`. -/
def resolveInteger (schema : Schema) (value : Option Val) (parent : Schema)
    (key : Option String) (st : RState) : Option RV :=
  let required := (parent.c.required).getD []
  match value with
  | none =>
    match schema.c.default with
    | some d => some ⟨.success (some d), value, false, st⟩
    | none =>
      if (key.map fun k => required.contains k).getD false && !isInsideNegation st then
        let (r, st) := mkFailure
          [{ message := "Missing required integer: " ++ keyDisplay key }] st
        some ⟨r, value, false, st⟩
      else
        some ⟨.success (some (.num 0)), value, false, st⟩
  | some .null =>
    match schema.c.default with
    | some d => some ⟨.success (some d), value, false, st⟩
    | none =>
      if (key.map fun k => required.contains k).getD false && !isInsideNegation st then
        let (r, st) := mkFailure
          [{ message := "Missing required integer: " ++ keyDisplay key }] st
        some ⟨r, value, false, st⟩
      else
        some ⟨.success (some (.num 0)), value, false, st⟩
  | some v =>
    let typeErr : List VErr :=
      if (match v with | .num _ => false | _ => true) &&
          (jsNotNullish value ||
            ((key.map fun k => required.contains k).getD false && !isInsideNegation st)) then
        [{ message := "Value must be a number" }] else []
    let intErr : List VErr :=
      if (match schema.c.type with | some (.single t) => t = "integer" | _ => false) &&
          !isIntegerJS v then
        [{ message := "Value must be an integer" }] else []
    let errors := typeErr ++ intErr ++ numericConstraintErrors schema v
    if errors.length > 0 then
      let (r, st) := mkFailure errors st
      some ⟨r, value, false, st⟩
    else
      some ⟨.success (some v), value, true, st⟩

/-- `resolveNumber`. On a missing non-required value it returns the
value itself (`undefined`), unlike `resolveInteger` which returns 0. -/
def resolveNumber (schema : Schema) (value : Option Val) (parent : Schema)
    (key : Option String) (st : RState) : Option RV :=
  let required := (parent.c.required).getD []
  match value with
  | none =>
    match schema.c.default with
    | some d => some ⟨.success (some d), value, false, st⟩
    | none =>
      if (key.map fun k => required.contains k).getD false && !isInsideNegation st then
        let (r, st) := mkFailure
          [{ message := "Missing required number: " ++ keyDisplay key }] st
        some ⟨r, value, false, st⟩
      else
        some ⟨.success value, value, true, st⟩
  | some .null =>
    match schema.c.default with
    | some d => some ⟨.success (some d), value, false, st⟩
    | none =>
      if (key.map fun k => required.contains k).getD false && !isInsideNegation st then
        let (r, st) := mkFailure
          [{ message := "Missing required number: " ++ keyDisplay key }] st
        some ⟨r, value, false, st⟩
      else
        some ⟨.success value, value, true, st⟩
  | some v =>
    let typeErr : List VErr :=
      if (match v with | .num _ => false | _ => true) &&
          (jsNotNullish value ||
            ((key.map fun k => required.contains k).getD false && !isInsideNegation st)) then
        [{ message := "Value must be a number" }] else []
    let errors := typeErr ++ numericConstraintErrors schema v
    if errors.length > 0 then
      let (r, st) := mkFailure errors st
      some ⟨r, value, false, st⟩
    else
      some ⟨.success (some v), value, true, st⟩

/-- `resolveString`: type, grapheme length, pattern and format checks,
all accumulated before failing. -/
def resolveString (schema : Schema) (value : Option Val) (parent : Schema)
    (key : Option String) (st : RState) : Option RV :=
  let required := (parent.c.required).getD []
  match value with
  | none =>
    match schema.c.default with
    | some d => some ⟨.success (some d), value, false, st⟩
    | none =>
      if (key.map fun k => required.contains k).getD false && !isInsideNegation st then
        let (r, st) := mkFailure
          [{ message := "Missing required string: " ++ keyDisplay key }] st
        some ⟨r, value, false, st⟩
      else
        some ⟨.success none, value, false, st⟩
  | some .null =>
    match schema.c.default with
    | some d => some ⟨.success (some d), value, false, st⟩
    | none =>
      if (key.map fun k => required.contains k).getD false && !isInsideNegation st then
        let (r, st) := mkFailure
          [{ message := "Missing required string: " ++ keyDisplay key }] st
        some ⟨r, value, false, st⟩
      else
        some ⟨.success none, value, false, st⟩
  | some v =>
    let typeErr : List VErr :=
      if (match v with | .str _ => false | _ => true) &&
          (jsNotNullish value ||
            ((key.map fun k => required.contains k).getD false && !isInsideNegation st)) then
        [{ message := "Value must be a string" }] else []
    let len := getSegmentsLength (strOfVal v)
    let lenErrs : List VErr :=
      (if (schema.c.minLength.map fun m => decide (len < m)).getD false then
        [{ message := "String length must be >= " ++ toString (schema.c.minLength.getD 0) : VErr }]
       else []) ++
      (if (schema.c.maxLength.map fun m => decide (len > m)).getD false then
        [{ message := "String length must be <= " ++ toString (schema.c.maxLength.getD 0) : VErr }]
       else [])
    let patErr : List VErr :=
      match schema.c.pattern with
      | some p => if p ≠ "" && !regexTest p (strOfVal v) then
          [{ message := "String must match pattern: " ++ p }] else []
      | none => []
    let fmtErr : List VErr :=
      match schema.c.format with
      | some f => if f ≠ "" && !isValidFormat (strOfVal v) f then
          [{ message := "Invalid " ++ f ++ " format" }] else []
      | none => []
    let errors := typeErr ++ lenErrs ++ patErr ++ fmtErr
    if errors.length > 0 then
      let (r, st) := mkFailure errors st
      some ⟨r, value, false, st⟩
    else
      some ⟨.success (some v), value, true, st⟩

/-- `resolveNotRequired`: under negation, the object must be missing at
least one of the properties each `not.required` list names (checked for
every `allOf` member carrying one, else for the schema's own `not`). -/
def resolveNotRequired (schema : Schema) (value : Option Val) : Bool :=
  let notReq : Schema → Option (List String) := fun s =>
    match s.c.notS with
    | some n => n.c.required
    | none => none
  match schema.c.allOf with
  | some subs =>
    let notRequiredSchemas := subs.filterMap notReq
    if notRequiredSchemas.length > 0 then
      notRequiredSchemas.all fun reqs =>
        !(reqs.all fun prop => (jsGet value prop).isSome)
    else
      match schema.c.notS with
      | some n =>
        match n.c.required with
        | some reqs => !(reqs.all fun prop => (jsGet value prop).isSome)
        | none => true
      | none => true
  | none =>
    match schema.c.notS with
    | some n =>
      match n.c.required with
      | some reqs => !(reqs.all fun prop => (jsGet value prop).isSome)
      | none => true
    | none => true


/-- Rendering of an enum member inside the "must be one of" message:
strings verbatim, otherwise a truthy `name` property, otherwise
`JSON.stringify`. -/
def enumDisplay (v : Val) : String :=
  match v with
  | .str s => s
  | _ =>
    match jsGet (some v) "name" with
    | some nv => if valTruthy nv then valDisplay 8 nv else stringifyV 8 v
    | none => stringifyV 8 v

/-- The required-property default-injection loop at the head of
`resolveObject`: a required property that is absent but whose property
schema carries a default is written into the value (throwing when the
value cannot take properties); one still absent contributes a
"missing required property" error. -/
def requiredInjectLoop (props : Option (List (String × Schema))) :
    List String → Option Val → Option (Option Val × List VErr)
  | [], value => some (value, [])
  | propKey :: rest, value =>
    let prop := (props.getD []).lookup propKey
    let propValue := jsGet value propKey
    if propValue.isNone then
      match prop.bind fun p => p.c.default with
      | some d =>
        match jsSetField value propKey d with
        | some v2 => requiredInjectLoop props rest (some v2)
        | none => none
      | none =>
        (requiredInjectLoop props rest value).map fun p =>
          (p.1, { message := "Missing required property: " ++ propKey, path := [propKey] } :: p.2)
    else requiredInjectLoop props rest value

/-- `reduce(mergeSchemas)` over the applicable dependent schemas. -/
def mergeReduce (fuel : Nat) : Schema → List Schema → Option Schema
  | acc, [] => some acc
  | acc, sub :: rest => do
    let m ← mergeS fuel {} acc sub
    mergeReduce fuel m rest

/-- `{ ...a, ...b }` on data values, always yielding an object. -/
def jsSpread2 (a b : Option Val) : Val :=
  .obj (spreadInto (spreadInto [] a) b)

/-! The resolution core (`part_002`, first document): the mutually
recursive resolver, fuelled. Every loop of the source is a sibling
function recursing over the remaining work; every call in the block
consumes one unit of fuel. -/

/-- The tuple of mutually recursive resolver functions at one fuel
level: each level's functions call the previous level's through `prev`,
so one call consumes one unit of fuel, exactly as a fuel parameter
threaded through a mutual block would. This fuel-indexed presentation
keeps kernel reduction linear in the executed call tree. -/
structure Funs where
  evaluateCondition : Schema → Option Val → Schema → Option String → Opts → RState → Option (Bool × Option Val × RState)
  evalCondItemsLoop : Schema → Schema → Option String → Opts → Option Val → List Nat → RState → Option (Bool × Option Val × RState)
  evalCondPropsLoop : List (String × Schema) → Schema → Schema → Opts → Option Val → RState → Option (Bool × Option Val × RState)
  resolveConditional : Schema → Option Val → Schema → Option String → Opts → RState → Option RV
  resolveAllOf : Schema → Option Val → Schema → Option String → Opts → RState → Option RV
  resolveAllOfLoop : List Schema → Schema → Option Val → Schema → Opts → RState → List VErr → Val → Option (List VErr × Val × Option Val × RState)
  resolveAnyOf : Schema → Option Val → Schema → Option String → Opts → RState → Option RV
  resolveAnyOfLoop : List Schema → Schema → Option Val → Schema → Opts → RState → Option (Sum RV (Option Val × RState))
  resolveOneOf : Schema → Option Val → Schema → Option String → Opts → RState → Option RV
  resolveOneOfLoop : List Schema → Schema → Option Val → Schema → Option String → Opts → RState → List (Res × Bool × Schema) → Option (List (Res × Bool × Schema) × Option Val × RState)
  resolveNot : Schema → Option Val → Schema → Option String → Opts → RState → Option RV
  resolveComposition : Schema → Option Val → Schema → Option String → Opts → RState → Option RV
  resolveArray : Schema → Option Val → Schema → Option String → Opts → RState → Option RV
  resolveContainsLoop : Schema → Schema → Option String → Opts → Option Val → List Nat → RState → Option (Bool × Option Val × RState)
  resolveArrayItems : Schema → Option Val → Schema → Option String → Opts → RState → Option RV
  tupleItemsLoop : List Schema → Option (Sum Bool Schema) → Schema → Option Val → List Nat → Opts → RState → List (Option Val) → List VErr → Option (List (Option Val) × List VErr × Option Val × RState)
  mixedItemsLoop : Schema → Option Val → List Nat → Opts → RState → List (Option Val) → List VErr → Option (List (Option Val) × List VErr × Option Val × RState)
  resolveObject : Schema → Option Val → Schema → Option String → Opts → RState → Option RV
  propertyNamesLoop : Schema → List String → Schema → Option String → Opts → RState → List VErr → Option (List VErr × RState)
  resolveObjectProperties : List (String × Schema) → Option Val → Schema → Option String → Opts → RState → Option RV
  objPropsLoop : List (String × Schema) → Option Val → Schema → Opts → RState → List (String × Val) → List VErr → Option (List (String × Val) × List VErr × Option Val × RState)
  resolvePatternProperties : Schema → Option Val → Option Val → Schema → Option String → Opts → RState → Option RV
  patPropsOuterLoop : List (String × Schema) → Option Val → List (String × Val) → Schema → Opts → RState → List VErr → Option (List (String × Val) × List VErr × Option Val × RState)
  patPropsInnerLoop : String → Schema → List String → Option Val → List (String × Val) → Schema → Opts → RState → List VErr → Option (List (String × Val) × List VErr × Option Val × RState)
  resolveAdditionalProperties : Schema → Option Val → Option Val → Schema → Option String → Opts → RState → Option RV
  addlPropsLoop : Option (Sum Bool Schema) → List (String × Val) → Option Val → List (String × Val) → Schema → Opts → RState → List VErr → Option (List (String × Val) × List VErr × Option Val × RState)
  resolveDependentSchemas : Schema → Option Val → Option Val → Schema → Option String → Opts → RState → Option RV
  resolveValue : Schema → Option Val → Schema → Option String → Opts → RState → Option RV
  resolveTypeDispatch : Schema → Option Val → Schema → Option String → Opts → RState → Option RV
  internalResolveValues : Schema → Option Val → Schema → Option String → Opts → RState → Option RV

/-- `evaluateCondition`: the probe that decides an `if` branch. It is
built on the resolver in skip-validation mode and can inject
condition-property defaults into the value (the threaded value shows
that). -/
def evaluateConditionF (fuel : Nat) (prev : Funs) :
    Schema → Option Val → Schema → Option String → Opts → RState → Option (Bool × Option Val × RState)
  | schema, value, parent, key, opts, st => do
    -- schema.contains?.const short-circuit
    let short : Option (Option (Bool × Option Val × RState)) :=
      match schema.c.contains with
      | some cs =>
        match cs.c.constV with
        | some cv =>
          if valTruthy cv then
            match value with
            | some (.arr l) =>
              if l.any fun item => jsStrictEq item cv then some none
              else some (some (false, value, st))
            | some .null => some (some (false, value, st))
            | none => some (some (false, value, st))
            | some _ => none -- `value?.some` is undefined and the call throws
          else some none
        | none => some none
      | none => some none
    match short with
    | none => none
    | some (some out) => some out
    | some none =>
      match schema.c.items with
      | some it =>
        match value with
        | some (.arr l) => do
          let st := pushStack st "items"
          -- a tuple list handed to the resolver is read as a plain
          -- object and carries no schema keywords
          let itemsSchema := match it with | .inl s => s | .inr _ => Schema.empty
          let (ok, value, st) ←
            prev.evalCondItemsLoop itemsSchema schema key opts value (List.range l.length) st
          some (ok, value, popStack st)
        | _ => some (false, value, st)
      | none =>
        match schema.c.properties with
        | some props =>
          if isObjectV value then
            prev.evalCondPropsLoop props parent schema opts value st
          else
            some (false, value, st)
        | none => do
          let rv ← prev.internalResolveValues schema value parent key
            { opts with skipValidation := true, skipConditional := true } st
          some ((match rv.r with | .success _ => true | _ => false), rv.vin, rv.st)


/-- The `items` loop of `evaluateCondition`. -/
def evalCondItemsLoopF (fuel : Nat) (prev : Funs) :
    Schema → Schema → Option String → Opts → Option Val → List Nat → RState → Option (Bool × Option Val × RState)
  | _, _, _, _, value, [], st => some (true, value, st)
  | itemsSchema, ifSchema, key, opts, value, i :: rest, st => do
    let itemValue := jsGet value (toString i)
    let rv ← prev.internalResolveValues itemsSchema itemValue ifSchema key opts st
    let value := writeBack value (toString i) itemValue rv.vin
    match rv.r with
    | .failure _ => some (false, value, rv.st)
    | .success _ => prev.evalCondItemsLoop itemsSchema ifSchema key opts value rest rv.st


/-- The per-property loop of `evaluateCondition`: a missing property
takes the condition default (mutating the value) or fails the
condition; each property is then probed against the parent property
schema merged with the condition. -/
def evalCondPropsLoopF (fuel : Nat) (prev : Funs) :
    List (String × Schema) → Schema → Schema → Opts → Option Val → RState → Option (Bool × Option Val × RState)
  | [], _, _, _, value, st => some (true, value, st)
  | (prop, condition) :: rest, parent, ifSchema, opts, value, st => do
    let st := pushStack st prop
    let parentProp := (parent.c.properties.getD []).lookup prop
    let propValue := jsGet value prop
    let step : Option (Option Val × Bool) :=
      match propValue with
      | none =>
        match condition.c.default with
        | some d => (jsSetField value prop d).map fun v2 => (some v2, true)
        | none => some (value, false)
      | some _ => some (value, true)
    match step with
    | none => none
    | some (value, false) => some (false, value, popStack st)
    | some (value, true) => do
      let propSchema ← mergeS fuel { mergeType := some false } (parentProp.getD Schema.empty) condition
      let rv ← prev.internalResolveValues propSchema propValue ifSchema (some prop)
        { opts with skipValidation := true, skipConditional := true } st
      let value := writeBack value prop propValue rv.vin
      let st := popStack rv.st
      match rv.r with
      | .failure _ => some (false, value, st)
      | .success _ => prev.evalCondPropsLoop rest parent ifSchema opts value st


/-- `resolveConditional`: probe the `if` schema, then resolve the base
schema merged (additively) with `then` or `else`. -/
def resolveConditionalF (fuel : Nat) (prev : Funs) :
    Schema → Option Val → Schema → Option String → Opts → RState → Option RV
  | schema, value, parent, key, opts, st => do
    match schema.c.ifS with
    | none => none -- every call site checks `schema.if` first
    | some ifSchema => do
      let partSchema := Schema.mk { schema.c with ifS := none, thenS := none, elseS := none }
      let st := pushStack st "if"
      let (isSatisfied, value, st) ← prev.evaluateCondition ifSchema value parent key opts st
      let st := popStack st
      let targetSchema :=
        if isSatisfied then schema.c.thenS else some ((schema.c.elseS).getD Schema.empty)
      let completeSchema ←
        mergeS fuel { mergeType := some false } partSchema (targetSchema.getD Schema.empty)
      prev.internalResolveValues completeSchema value parent key opts st


/-- `resolveAllOf`: resolve every member merged with the base; members
with their own `if` go through conditional resolution first, their
resolved objects being deep-assigned into an accumulator. -/
def resolveAllOfF (fuel : Nat) (prev : Funs) :
    Schema → Option Val → Schema → Option String → Opts → RState → Option RV
  | schema, value, parent, key, opts, st => do
    match schema.c.allOf with
    | none => none -- resolveComposition checks `schema.allOf` first
    | some allOf => do
      let partSchema := Schema.mk { schema.c with allOf := none }
      let (errors, values, value, st) ←
        prev.resolveAllOfLoop allOf partSchema value parent opts st [] (Val.obj [])
      if errors.length > 0 then
        let (r, st) := mkFailure errors st
        some ⟨r, value, false, st⟩
      else if isObjectV value && isObjectV (some values) then
        some ⟨.success (some values), value, false, st⟩
      else
        prev.internalResolveValues partSchema value parent key {} st


/-- The member loop of `resolveAllOf`. -/
def resolveAllOfLoopF (fuel : Nat) (prev : Funs) :
    List Schema → Schema → Option Val → Schema → Opts → RState → List VErr → Val → Option (List VErr × Val × Option Val × RState)
  | [], _, value, _, _, st, errors, values => some (errors, values, value, st)
  | sub :: rest, partSchema, value, parent, opts, st, errors, values => do
    let (merged, errors, value, st) ←
      if sub.c.ifS.isSome then do
        let mergedSub ← mergeS fuel { mergeType := some false } sub partSchema
        let rvC ← prev.resolveConditional mergedSub value parent (some "allOf") opts st
        let errors := match rvC.r with | .failure es => errors ++ es | _ => errors
        pure (partSchema, errors, rvC.vin, rvC.st)
      else do
        let m ← mergeS fuel { mergeType := some false } sub partSchema
        pure (m, errors, value, st)
    let rv ← prev.internalResolveValues merged value parent (some "allOf") opts st
    match rv.r with
    | .failure es =>
      prev.resolveAllOfLoop rest partSchema rv.vin parent opts rv.st (errors ++ es) values
    | .success v => do
      match deepAssignV fuel values v with
      | some values2 =>
        prev.resolveAllOfLoop rest partSchema rv.vin parent opts rv.st errors values2
      | none => none


/-- `resolveAnyOf`: first passing branch wins and the (probe-mutated)
input value is returned; otherwise default, otherwise the aggregate
failure. The per-branch errors collect into the state accumulator as
they are raised; the returned failure carries only the aggregate
message. -/
def resolveAnyOfF (fuel : Nat) (prev : Funs) :
    Schema → Option Val → Schema → Option String → Opts → RState → Option RV
  | schema, value, parent, key, opts, st => do
    match schema.c.anyOf with
    | none => none
    | some anyOf => do
      let rest := Schema.mk { schema.c with anyOf := none }
      let out ← prev.resolveAnyOfLoop anyOf rest value parent opts st
      match out with
      | .inl rv => some rv
      | .inr (value, st) =>
        match schema.c.default with
        | some d => some ⟨.success (some d), value, false, st⟩
        | none =>
          let (r, st) := mkFailure
            [{ message := "Value must match at least one schema in anyOf" }] st
          some ⟨r, value, false, st⟩


/-- The branch loop of `resolveAnyOf`. -/
def resolveAnyOfLoopF (fuel : Nat) (prev : Funs) :
    List Schema → Schema → Option Val → Schema → Opts → RState → Option (Sum RV (Option Val × RState))
  | [], _, value, _, _, st => some (.inr (value, st))
  | sub :: subsRest, rest, value, parent, opts, st => do
    let merged ← mergeS fuel {} sub rest
    let rv ← prev.internalResolveValues merged value parent (some "anyOf") opts st
    match rv.r with
    | .success _ => some (.inl ⟨.success rv.vin, rv.vin, true, rv.st⟩)
    | .failure _ => prev.resolveAnyOfLoop subsRest rest rv.vin parent opts rv.st


/-- `resolveOneOf`: resolve every branch, then demand exactly one pass;
on zero passes surface the structurally best-matching branch failure
when one exists; on several passes fall back to the default or fail. -/
def resolveOneOfF (fuel : Nat) (prev : Funs) :
    Schema → Option Val → Schema → Option String → Opts → RState → Option RV
  | schema, value, parent, key, opts, st => do
    match schema.c.oneOf with
    | none => none
    | some oneOf => do
      let rest := Schema.mk { schema.c with oneOf := none }
      let (cands, value, st) ← prev.resolveOneOfLoop oneOf rest value parent key opts st []
      let passing := cands.filter fun c => match c.1 with | .success _ => true | _ => false
      match passing with
      | [c] => some ⟨c.1, value, c.2.1, st⟩
      | [] =>
        let valueProps := jsKeys value
        let matchingCandidate := cands.find? fun c =>
          valueProps.any fun p => ((c.2.2.c.properties.getD []).lookup p).isSome
        match matchingCandidate with
        | some c => some ⟨c.1, value, false, st⟩
        | none =>
          let (r, st) := mkFailure
            [{ message := "Value must match exactly one schema in oneOf" }] st
          some ⟨r, value, false, st⟩
      | _ =>
        match schema.c.default with
        | some d => some ⟨.success (some d), value, false, st⟩
        | none =>
          let (r, st) := mkFailure
            [{ message := "Value must match exactly one schema in oneOf" }] st
          some ⟨r, value, false, st⟩


/-- The candidate loop of `resolveOneOf`: each entry keeps the result,
its aliasing flag and the original (unmerged) branch schema. -/
def resolveOneOfLoopF (fuel : Nat) (prev : Funs) :
    List Schema → Schema → Option Val → Schema → Option String → Opts → RState → List (Res × Bool × Schema) → Option (List (Res × Bool × Schema) × Option Val × RState)
  | [], _, value, _, _, _, st, acc => some (acc, value, st)
  | sub :: restSubs, rest, value, parent, key, opts, st, acc => do
    let merged ← mergeS fuel {} sub rest
    let rv ← prev.internalResolveValues merged value parent key opts st
    prev.resolveOneOfLoop restSubs rest rv.vin parent key opts rv.st (acc ++ [(rv.r, rv.ali, sub)])


/-- `resolveNot`: if the negated schema resolves, fail; otherwise
resolve the schema without `not`. The negation-depth counter brackets
the whole body. -/
def resolveNotF (fuel : Nat) (prev : Funs) :
    Schema → Option Val → Schema → Option String → Opts → RState → Option RV
  | schema, value, parent, key, opts, st => do
    let st := { st with negationDepth := st.negationDepth + 1 }
    match schema.c.notS with
    | none => none -- both call sites check `schema.not`
    | some notSchema => do
      let partSchema := Schema.mk { schema.c with notS := none }
      let st := pushStack st "not"
      let rvN ← prev.internalResolveValues notSchema value parent (some "not") opts st
      match rvN.r with
      | .success _ =>
        let (r, st2) := mkFailure [{ message := "Value must not match schema" }] rvN.st
        let st2 := popStack st2
        some ⟨r, rvN.vin, false, { st2 with negationDepth := st2.negationDepth - 1 }⟩
      | .failure _ => do
        let st2 := popStack rvN.st
        let rv ← prev.internalResolveValues partSchema rvN.vin parent key opts st2
        some ⟨rv.r, rv.vin, rv.ali, { rv.st with negationDepth := rv.st.negationDepth - 1 }⟩


/-- `resolveComposition`: dispatch to the present composition keyword,
bracketing the path stack with its marker. -/
def resolveCompositionF (fuel : Nat) (prev : Funs) :
    Schema → Option Val → Schema → Option String → Opts → RState → Option RV
  | schema, value, parent, key, opts, st => do
    if schema.c.allOf.isSome then do
      let rv ← prev.resolveAllOf schema value parent key opts (pushStack st "allOf")
      some { rv with st := popStack rv.st }
    else if schema.c.anyOf.isSome then do
      let rv ← prev.resolveAnyOf schema value parent key opts (pushStack st "anyOf")
      some { rv with st := popStack rv.st }
    else if schema.c.oneOf.isSome then do
      let rv ← prev.resolveOneOf schema value parent key opts (pushStack st "oneOf")
      some { rv with st := popStack rv.st }
    else if schema.c.notS.isSome then do
      let rv ← prev.resolveNot schema value parent key opts (pushStack st "not")
      some { rv with st := popStack rv.st }
    else
      some ⟨.success value, value, true, st⟩


/-- `resolveArray`: shape and constraint checks (length, uniqueness,
contains) accumulate before item resolution. -/
def resolveArrayF (fuel : Nat) (prev : Funs) :
    Schema → Option Val → Schema → Option String → Opts → RState → Option RV
  | schema, value, parent, key, opts, st => do
    let required := parent.c.required.getD []
    match value with
    | some (.arr l) => do
      let errors : List VErr :=
        (if (schema.c.minItems.map fun m => decide (l.length < m)).getD false then
          [{ message := "Array length must be >= " ++ toString (schema.c.minItems.getD 0) : VErr }]
         else []) ++
        (if (schema.c.maxItems.map fun m => decide (l.length > m)).getD false then
          [{ message := "Array length must be <= " ++ toString (schema.c.maxItems.getD 0) : VErr }]
         else []) ++
        (if schema.c.uniqueItems = some true &&
            (dedupBy (fun a b : String => a == b) (l.map (stringifyV fuel))).length ≠ l.length then
          [{ message := "Array items must be unique" : VErr }]
         else [])
      let (errors, value, st) ←
        match schema.c.contains with
        | some cs => do
          let st := pushStack st "contains"
          let (found, value, st) ←
            prev.resolveContainsLoop cs parent key opts value (List.range l.length) st
          let st := popStack st
          pure (if found then errors
                else errors ++ [{ message := "Array must contain at least one matching item" : VErr }],
            value, st)
        | none => pure (errors, value, st)
      if errors.length > 0 then
        let (r, st) := mkFailure errors st
        some ⟨r, value, false, st⟩
      else
        prev.resolveArrayItems schema value parent key opts st
    | none =>
      match schema.c.default with
      | some d =>
        let dv := match d with | .arr dl => Val.arr dl | other => Val.arr [other]
        some ⟨.success (some dv), value, false, st⟩
      | none =>
        if (key.map fun k => required.contains k).getD false && !isInsideNegation st then
          let (r, st) := mkFailure
            [{ message := "Missing required array: " ++ keyDisplay key }] st
          some ⟨r, value, false, st⟩
        else
          some ⟨.success none, value, false, st⟩
    | some .null =>
      match schema.c.default with
      | some d =>
        let dv := match d with | .arr dl => Val.arr dl | other => Val.arr [other]
        some ⟨.success (some dv), value, false, st⟩
      | none =>
        if (key.map fun k => required.contains k).getD false && !isInsideNegation st then
          let (r, st) := mkFailure
            [{ message := "Missing required array: " ++ keyDisplay key }] st
          some ⟨r, value, false, st⟩
        else
          some ⟨.success none, value, false, st⟩
    | some _ =>
      let (r, st) := mkFailure [{ message := "Value must be an array" }] st
      some ⟨r, value, false, st⟩


/-- The `contains` probe loop. -/
def resolveContainsLoopF (fuel : Nat) (prev : Funs) :
    Schema → Schema → Option String → Opts → Option Val → List Nat → RState → Option (Bool × Option Val × RState)
  | _, _, _, _, value, [], st => some (false, value, st)
  | cs, parent, key, opts, value, i :: rest, st => do
    let itemValue := jsGet value (toString i)
    let rv ← prev.internalResolveValues cs itemValue parent key opts st
    let value := writeBack value (toString i) itemValue rv.vin
    match rv.r with
    | .success _ => some (true, value, rv.st)
    | .failure _ => prev.resolveContainsLoop cs parent key opts value rest rv.st


/-- `resolveArrayItems`: tuple (`items` a list) positions resolve
index-wise with `additionalItems` governing the excess; otherwise
`prefixItems` covers its indices and a single `items` schema the rest,
anything else passing through. -/
def resolveArrayItemsF (fuel : Nat) (prev : Funs) :
    Schema → Option Val → Schema → Option String → Opts → RState → Option RV
  | schema, values, parent, key, opts, st => do
    if schema.c.items.isNone && schema.c.prefixItems.isNone then
      some ⟨.success values, values, true, st⟩
    else do
      let len := match values with | some (.arr l) => l.length | _ => 0
      match schema.c.items with
      | some (.inr tupleItems) => do
        let st := pushStack st "items"
        let (result, errors, values, st) ←
          prev.tupleItemsLoop tupleItems schema.c.additionalItems schema values
            (List.range len) opts st [] []
        let st := popStack st
        if errors.length > 0 then
          let (r, st) := mkFailure errors st
          some ⟨r, values, false, st⟩
        else do
          let resultVals ← result.mapM id
          some ⟨.success (some (.arr resultVals)), values, false, st⟩
      | _ => do
        let maxLength := max len ((schema.c.prefixItems.map List.length).getD 0)
        let (result, errors, values, st) ←
          prev.mixedItemsLoop schema values (List.range maxLength) opts st [] []
        if errors.length > 0 then
          let (r, st) := mkFailure errors st
          some ⟨r, values, false, st⟩
        else do
          let resultVals ← result.mapM id
          some ⟨.success (some (.arr resultVals)), values, false, st⟩


/-- The tuple-position loop: per-index resolution while the tuple lasts,
then `additionalItems` (false breaks with its error; a truthy value is
recursed into with its result discarded; absence drops the element). -/
def tupleItemsLoopF (fuel : Nat) (prev : Funs) :
    List Schema → Option (Sum Bool Schema) → Schema → Option Val → List Nat → Opts → RState → List (Option Val) → List VErr → Option (List (Option Val) × List VErr × Option Val × RState)
  | _, _, _, values, [], _, st, result, errors => some (result, errors, values, st)
  | tupleItems, addlItems, schema, values, i :: rest, opts, st, result, errors => do
    let itemValue := jsGet values (toString i)
    if h : i < tupleItems.length then do
      let rv ← prev.internalResolveValues (tupleItems.get ⟨i, h⟩) itemValue schema
        (some (toString i)) opts st
      let values := writeBack values (toString i) itemValue rv.vin
      match rv.r with
      | .failure es =>
        prev.tupleItemsLoop tupleItems addlItems schema values rest opts rv.st result (errors ++ es)
      | .success v =>
        prev.tupleItemsLoop tupleItems addlItems schema values rest opts rv.st (result ++ [v]) errors
    else
      match addlItems with
      | some (.inl false) =>
        -- `break`: stop the loop with the error recorded
        some (result, errors ++ [{ message := "Additional items not allowed" }], values, st)
      | some (.inl true) => do
        -- `schema.additionalItems` is truthy; the boolean handed to the
        -- resolver carries no keywords, i.e. the empty schema
        let rv ← prev.internalResolveValues Schema.empty itemValue schema (some (toString i)) opts st
        let values := writeBack values (toString i) itemValue rv.vin
        let errors := match rv.r with | .failure es => errors ++ es | _ => errors
        prev.tupleItemsLoop tupleItems addlItems schema values rest opts rv.st result errors
      | some (.inr addl) => do
        let rv ← prev.internalResolveValues addl itemValue schema (some (toString i)) opts st
        let values := writeBack values (toString i) itemValue rv.vin
        let errors := match rv.r with | .failure es => errors ++ es | _ => errors
        prev.tupleItemsLoop tupleItems addlItems schema values rest opts rv.st result errors
      | none =>
        prev.tupleItemsLoop tupleItems addlItems schema values rest opts st result errors


/-- The prefixItems / single-items loop. -/
def mixedItemsLoopF (fuel : Nat) (prev : Funs) :
    Schema → Option Val → List Nat → Opts → RState → List (Option Val) → List VErr → Option (List (Option Val) × List VErr × Option Val × RState)
  | _, values, [], _, st, result, errors => some (result, errors, values, st)
  | schema, values, i :: rest, opts, st, result, errors => do
    let itemValue := jsGet values (toString i)
    let prefixCase : Option Schema :=
      match schema.c.prefixItems with
      | some pis => pis.get? i
      | none => none
    match prefixCase with
    | some pre => do
      let st := pushStack st "prefixItems"
      let rv ← prev.internalResolveValues pre itemValue schema (some (toString i)) opts st
      let st := popStack rv.st
      let values := writeBack values (toString i) itemValue rv.vin
      match rv.r with
      | .failure es => prev.mixedItemsLoop schema values rest opts st result (errors ++ es)
      | .success v => prev.mixedItemsLoop schema values rest opts st (result ++ [v]) errors
    | none =>
      match schema.c.items with
      | some (.inl itemsS) => do
        let st := pushStack st "items"
        let rv ←
          if itemsS.c.ifS.isSome then
            prev.resolveConditional itemsS itemValue schema (some (toString i)) opts st
          else
            prev.internalResolveValues itemsS itemValue schema (some (toString i)) opts st
        let st := popStack rv.st
        let values := writeBack values (toString i) itemValue rv.vin
        match rv.r with
        | .failure es => prev.mixedItemsLoop schema values rest opts st result (errors ++ es)
        | .success v => prev.mixedItemsLoop schema values rest opts st (result ++ [v]) errors
      | _ =>
        prev.mixedItemsLoop schema values rest opts st (result ++ [itemValue]) errors


/-- `resolveObject` (`part_002` ordering): negation or required-default
handling and `propertyNames` first, then the property stages threading
an accumulating result, the conditional, and only then the shape and
default fallback checks. The final property-count checks of the source
push onto an error list it never reads again, so they drop out. -/
def resolveObjectF (fuel : Nat) (prev : Funs) :
    Schema → Option Val → Schema → Option String → Opts → RState → Option RV
  | schema, value0, parent, key, opts, st0 => do
    let required := parent.c.required.getD []
    let mut value := value0
    let mut st := st0
    let mut errors : List VErr := []
    if isInsideNegation st then
      st := pushStack st "required"
      if !resolveNotRequired schema value then
        errors := errors ++ [{ message := "Object does not satisfy required property constraints" }]
      st := popStack st
    else
      match schema.c.required with
      | some reqs =>
        let (v2, errs) ← requiredInjectLoop schema.c.properties reqs value
        value := v2
        errors := errors ++ errs
      | none => pure ()
    match schema.c.propertyNames with
    | some pn =>
      st := pushStack st "propertyNames"
      let (errs2, st2) ← prev.propertyNamesLoop pn (jsKeys value) parent key opts st []
      errors := errors ++ errs2
      st := popStack st2
    | none => pure ()
    if errors.length > 0 then
      let (r, st2) := mkFailure errors st
      return ⟨r, value, false, st2⟩
    let mut result := value
    let mut resAli := true
    match schema.c.properties with
    | some props =>
      let rv ← prev.resolveObjectProperties props value parent key opts st
      value := rv.vin
      st := rv.st
      match rv.r with
      | .failure _ => return ⟨rv.r, value, false, st⟩
      | .success pv =>
        result := some (jsSpread2 result pv)
        resAli := false
    | none => pure ()
    match schema.c.patternProperties with
    | some _ =>
      let rv ← prev.resolvePatternProperties schema value result parent key opts st
      value := rv.vin
      st := rv.st
      match rv.r with
      | .failure _ => return ⟨rv.r, value, false, st⟩
      | .success pv =>
        result := pv
        resAli := false
    | none => pure ()
    if (match schema.c.additionalProperties with | some (.inl true) => true | _ => false) then
      let rv ← prev.resolveAdditionalProperties schema value result parent key opts st
      value := rv.vin
      st := rv.st
      match rv.r with
      | .failure _ => return ⟨rv.r, value, false, st⟩
      | .success pv =>
        result := pv
        resAli := false
    match schema.c.dependentSchemas with
    | some _ =>
      let rv ← prev.resolveDependentSchemas schema value result parent key opts st
      if resAli then value := rv.vin
      st := rv.st
      match rv.r with
      | .failure _ => return ⟨rv.r, value, false, st⟩
      | .success pv =>
        result := pv
        resAli := resAli && rv.ali
    | none => pure ()
    match schema.c.ifS with
    | some _ =>
      let rv ← prev.resolveConditional schema result parent key opts st
      if resAli then value := rv.vin
      st := rv.st
      match rv.r with
      | .failure _ => return ⟨rv.r, value, false, st⟩
      | .success pv =>
        result := pv
        resAli := resAli && rv.ali
    | none => pure ()
    -- `if (result !== undefined) value = result` rebinds the local only;
    -- the caller-visible object is unchanged by the rebinding itself
    let valueRead := if result.isSome then result else value
    match valueRead with
    | some (.obj _) => pure ()
    | none =>
      match schema.c.default with
      | some d => return ⟨.success (some d), value, false, st⟩
      | none =>
        if (key.map fun k => required.contains k).getD false && !isInsideNegation st then
          let (r, st2) := mkFailure
            [{ message := "Missing required object: " ++ keyDisplay key }] st
          return ⟨r, value, false, st2⟩
        pure () -- `value = {}`: only the dropped property-count checks read it
    | some .null =>
      match schema.c.default with
      | some d => return ⟨.success (some d), value, false, st⟩
      | none =>
        if (key.map fun k => required.contains k).getD false && !isInsideNegation st then
          let (r, st2) := mkFailure
            [{ message := "Missing required object: " ++ keyDisplay key }] st
          return ⟨r, value, false, st2⟩
        pure ()
    | some _ =>
      let (r, st2) := mkFailure [{ message := "Value must be an object" }] st
      return ⟨r, value, false, st2⟩
    return ⟨.success result, value, resAli, st⟩


/-- The `propertyNames` loop. -/
def propertyNamesLoopF (fuel : Nat) (prev : Funs) :
    Schema → List String → Schema → Option String → Opts → RState → List VErr → Option (List VErr × RState)
  | _, [], _, _, _, st, errors => some (errors, st)
  | pn, name :: rest, parent, key, opts, st, errors => do
    let rv ← prev.internalResolveValues pn (some (.str name)) parent key opts st
    let errors := match rv.r with | .failure es => errors ++ es | _ => errors
    prev.propertyNamesLoop pn rest parent key opts rv.st errors


/-- `resolveObjectProperties`: resolve each declared property against
its schema (missing ones pre-seeded with their default), collecting
errors or the resolved fields. -/
def resolveObjectPropertiesF (fuel : Nat) (prev : Funs) :
    List (String × Schema) → Option Val → Schema → Option String → Opts → RState → Option RV
  | props, value, parent, key, opts, st => do
    let (result, errors, value, st) ← prev.objPropsLoop props value parent opts st [] []
    if errors.length > 0 then
      let (r, st) := mkFailure errors st
      some ⟨r, value, false, st⟩
    else
      some ⟨.success (some (.obj result)), value, false, st⟩


/-- The property loop of `resolveObjectProperties`. -/
def objPropsLoopF (fuel : Nat) (prev : Funs) :
    List (String × Schema) → Option Val → Schema → Opts → RState → List (String × Val) → List VErr → Option (List (String × Val) × List VErr × Option Val × RState)
  | [], value, _, _, st, result, errors => some (result, errors, value, st)
  | (propKey, propSchema) :: rest, value, parent, opts, st, result, errors => do
    let propValue := jsGet value propKey
    let result :=
      if propValue.isNone && propSchema.c.default.isSome then
        objSet result propKey (propSchema.c.default.getD .null)
      else result
    let st := pushStack st propKey
    let rv ← prev.internalResolveValues propSchema propValue parent (some propKey) opts st
    let st := popStack rv.st
    let value := writeBack value propKey propValue rv.vin
    match rv.r with
    | .failure es => prev.objPropsLoop rest value parent opts st result (errors ++ es)
    | .success v =>
      let result := match v with | some vv => objSet result propKey vv | none => result
      prev.objPropsLoop rest value parent opts st result errors


/-- `resolvePatternProperties` (the `$ref`-free paths): every value
entry matching a pattern and not already in the result resolves against
the pattern schema. -/
def resolvePatternPropertiesF (fuel : Nat) (prev : Funs) :
    Schema → Option Val → Option Val → Schema → Option String → Opts → RState → Option RV
  | schema, value, result, parent, key, opts, st => do
    match schema.c.patternProperties with
    | none => some ⟨.success result, value, false, st⟩
    | some patts => do
      let base := match result with | some (.obj fs) => fs | _ => []
      let (newResult, errors, value, st) ←
        prev.patPropsOuterLoop patts value base parent opts st []
      if errors.length > 0 then
        let (r, st) := mkFailure errors st
        some ⟨r, value, false, st⟩
      else
        some ⟨.success (some (.obj newResult)), value, false, st⟩


/-- The per-pattern loop of `resolvePatternProperties`. -/
def patPropsOuterLoopF (fuel : Nat) (prev : Funs) :
    List (String × Schema) → Option Val → List (String × Val) → Schema → Opts → RState → List VErr → Option (List (String × Val) × List VErr × Option Val × RState)
  | [], value, newResult, _, _, st, errors => some (newResult, errors, value, st)
  | (pattern, propSchema) :: rest, value, newResult, parent, opts, st, errors => do
    let entries ← jsEntries value
    let (newResult, errors, value, st) ←
      prev.patPropsInnerLoop pattern propSchema (entries.map Prod.fst) value newResult
        parent opts st errors
    prev.patPropsOuterLoop rest value newResult parent opts st errors


/-- The per-entry loop of `resolvePatternProperties`. -/
def patPropsInnerLoopF (fuel : Nat) (prev : Funs) :
    String → Schema → List String → Option Val → List (String × Val) → Schema → Opts → RState → List VErr → Option (List (String × Val) × List VErr × Option Val × RState)
  | _, _, [], value, newResult, _, _, st, errors => some (newResult, errors, value, st)
  | pattern, propSchema, k :: rest, value, newResult, parent, opts, st, errors => do
    if regexTest pattern k && (newResult.lookup k).isNone then do
      let propValue := jsGet value k
      let rv ← prev.internalResolveValues propSchema propValue parent (some k) opts st
      let value := writeBack value k propValue rv.vin
      match rv.r with
      | .failure es =>
        prev.patPropsInnerLoop pattern propSchema rest value newResult parent opts rv.st
          (errors ++ es)
      | .success v =>
        let newResult := match v with | some vv => objSet newResult k vv | none => newResult
        prev.patPropsInnerLoop pattern propSchema rest value newResult parent opts rv.st errors
    else
      prev.patPropsInnerLoop pattern propSchema rest value newResult parent opts st errors


/-- `resolveAdditionalProperties` (the `$ref` branch is omitted with the
`$ref` keyword itself): entries not in the result resolve against a
schema-valued `additionalProperties`; otherwise the source reads the
property off the entry value (its own quirk, kept as written). -/
def resolveAdditionalPropertiesF (fuel : Nat) (prev : Funs) :
    Schema → Option Val → Option Val → Schema → Option String → Opts → RState → Option RV
  | schema, value, result, parent, key, opts, st => do
    match schema.c.additionalProperties with
    | some (.inl false) => some ⟨.success result, value, false, st⟩
    | addl => do
      let entries ← jsEntries value
      let base := match result with | some (.obj fs) => fs | _ => []
      let (newResult, errors, value, st) ←
        prev.addlPropsLoop addl entries value base parent opts st []
      if errors.length > 0 then
        let (r, st) := mkFailure errors st
        some ⟨r, value, false, st⟩
      else
        some ⟨.success (some (.obj newResult)), value, false, st⟩


/-- The entry loop of `resolveAdditionalProperties`. -/
def addlPropsLoopF (fuel : Nat) (prev : Funs) :
    Option (Sum Bool Schema) → List (String × Val) → Option Val → List (String × Val) → Schema → Opts → RState → List VErr → Option (List (String × Val) × List VErr × Option Val × RState)
  | _, [], value, newResult, _, _, st, errors => some (newResult, errors, value, st)
  | addl, (k, v) :: rest, value, newResult, parent, opts, st, errors => do
    if (newResult.lookup k).isNone then do
      let propValue := jsGet (some v) k
      match addl with
      | some (.inr addlSchema) => do
        let rv ← prev.internalResolveValues addlSchema propValue parent (some k) opts st
        match rv.r with
        | .failure es => prev.addlPropsLoop addl rest value newResult parent opts rv.st (errors ++ es)
        | .success rvv =>
          let newResult := match rvv with | some vv => objSet newResult k vv | none => newResult
          prev.addlPropsLoop addl rest value newResult parent opts rv.st errors
      | _ =>
        let newResult := match propValue with | some pv => objSet newResult k pv | none => newResult
        prev.addlPropsLoop addl rest value newResult parent opts st errors
    else
      prev.addlPropsLoop addl rest value newResult parent opts st errors


/-- `resolveDependentSchemas`: the dependent schemas of properties
present in the value merge over the base and resolve against the
accumulated result. The returned value slot tracks the result argument
(the object the source resolves and may mutate). -/
def resolveDependentSchemasF (fuel : Nat) (prev : Funs) :
    Schema → Option Val → Option Val → Schema → Option String → Opts → RState → Option RV
  | schema, value, result, parent, key, opts, st => do
    if schema.c.dependentSchemas.isNone || !optTruthy value then
      some ⟨.success result, result, true, st⟩
    else do
      let rest := Schema.mk { schema.c with dependentSchemas := none }
      let depSchemas := ((schema.c.dependentSchemas.getD []).filter fun p =>
        (jsGet value p.1).isSome).map Prod.snd
      if depSchemas.length = 0 then
        some ⟨.success result, result, true, st⟩
      else do
        let merged ← mergeReduce fuel rest depSchemas
        prev.internalResolveValues merged result parent key opts st


/-- `resolveValue`: single-member compositions merge into the base,
`not` and multi-member compositions dispatch, missing values take the
default (or `const`, or fail when required), and const / enum /
required-property validation runs on present values. -/
def resolveValueF (fuel : Nat) (prev : Funs) :
    Schema → Option Val → Schema → Option String → Opts → RState → Option RV
  | schema, value, parent, key, opts, st => do
    let required := parent.c.required.getD []
    match schema.c.allOf with
    | some [a0] => do
      let rest := Schema.mk { schema.c with allOf := none }
      let merged ← mergeS fuel {} rest a0
      return (← prev.internalResolveValues merged value parent key opts st)
    | _ => pure ()
    match schema.c.anyOf with
    | some [a0] => do
      let rest := Schema.mk { schema.c with anyOf := none }
      let merged ← mergeS fuel {} rest a0
      return (← prev.internalResolveValues merged value parent key opts st)
    | _ => pure ()
    match schema.c.oneOf with
    | some [o0] => do
      let rest := Schema.mk { schema.c with oneOf := none }
      let merged ← mergeS fuel {} rest o0
      return (← prev.internalResolveValues merged value parent key opts st)
    | _ => pure ()
    if schema.c.notS.isSome && !opts.skipValidation then
      return (← prev.resolveNot schema value parent key opts st)
    if schema.c.oneOf.isSome || schema.c.anyOf.isSome || schema.c.allOf.isSome then
      return (← prev.resolveComposition schema value parent key opts st)
    if !jsNotNullish value then
      let defaultValue := schema.c.default <|> schema.c.constV
      match defaultValue with
      | some d => return ⟨.success (some d), value, false, st⟩
      | none =>
        if (key.map fun k => required.contains k).getD false && !isInsideNegation st then
          let (r, st2) := mkFailure
            [{ message := "Missing required value: " ++ keyDisplay key }] st
          -- the source pops the stack here without a matching push
          return ⟨r, value, false, popStack st2⟩
        return ⟨.success value, value, true, st⟩
    let mut errors : List VErr := []
    match schema.c.constV with
    | some c =>
      if valTruthy c && !jsStrictEqU (some c) value then
        errors := errors ++ [{ message := "Value must be " ++ valDisplay 8 c }]
    | none => pure ()
    match schema.c.enum with
    | some evs =>
      let vv := value.getD .null
      if !(evs.any fun v => jsStrictEq v vv || jsStrictEqU (jsGet (some v) "name") value) then
        errors := errors ++
          [{ message := "Value must be one of: " ++
              String.intercalate ", " (evs.map enumDisplay) }]
    | none => pure ()
    match schema.c.required with
    | some reqs =>
      if reqs.length > 0 && !opts.skipValidation then
        let missingProps := reqs.filter fun prop =>
          (jsGet value prop).isNone &&
            (((schema.c.properties.getD []).lookup prop).bind fun p => p.c.default).isNone
        if missingProps.length > 0 then
          let st2 := missingProps.foldl pushStack st
          let (r, st3) := mkFailure
            (missingProps.map fun prop =>
              { message := "Missing required property: " ++ prop : VErr }) st2
          let st4 := missingProps.foldl (fun s _ => popStack s) st3
          return ⟨r, value, false, st4⟩
    | none => pure ()
    if errors.length > 0 then
      let push := (key.map fun k => decide (k ≠ "")).getD false
      let st2 := if push then pushStack st (key.getD "") else st
      let (r, st3) := mkFailure errors st2
      let st4 := if push then popStack st3 else st3
      return ⟨r, value, false, st4⟩
    return ⟨.success value, value, true, st⟩


/-- The `resolveType` dispatch of `internalResolveValues`: flips the
`resolvedType` flag, then hands off to the per-type resolver; an
unrecognized (or missing, or still multiple) type fails. -/
def resolveTypeDispatchF (fuel : Nat) (prev : Funs) :
    Schema → Option Val → Schema → Option String → Opts → RState → Option RV
  | schema, result, parent, key, opts, st =>
    let st := { st with resolvedType := true }
    match schema.c.type with
    | some (.single t) =>
      if t = "null" then resolveNull schema result st
      else if t = "array" then prev.resolveArray schema result parent key opts st
      else if t = "boolean" then resolveBoolean schema result parent key st
      else if t = "integer" then resolveInteger schema result parent key st
      else if t = "number" then resolveNumber schema result parent key st
      else if t = "object" then prev.resolveObject schema result parent key opts st
      else if t = "string" then resolveString schema result parent key st
      else
        let (r, st2) := mkFailure [{ message := "Unsupported type: " ++ t }] st
        some ⟨r, result, false, st2⟩
    | other =>
      let (r, st2) := mkFailure [{ message := "Unsupported type: " ++ typeDisplay other }] st
      some ⟨r, result, false, st2⟩


/-- `internalResolveValues`: value-level resolution, the conditional and
composition stages on object results, then the type dispatch (multiple
declared types narrow to the matching one and keyword-filter before
recursing). On a value-level failure with no type resolver run yet and
not inside `not`, the type resolver runs once more for its error
side-effects. -/
def internalResolveValuesF (fuel : Nat) (prev : Funs) :
    Schema → Option Val → Schema → Option String → Opts → RState → Option RV
  | schema, value, parent, key, opts, st => do
    let rv1 ← prev.resolveValue schema value parent key opts st
    match rv1.r with
    | .failure _ =>
      if !rv1.st.resolvedType && !(rv1.st.stack.contains "not") then do
        let rvT ← prev.resolveTypeDispatch schema rv1.vin parent key opts rv1.st
        return ⟨rv1.r, rvT.vin, false, rvT.st⟩
      return ⟨rv1.r, rv1.vin, false, rv1.st⟩
    | .success v1 => do
      let mut result := v1
      let mut input := rv1.vin
      let mut ali := rv1.ali
      let mut st := rv1.st
      if truthyObjectLike result && schema.c.ifS.isSome then
        let rvC ← prev.resolveConditional schema result parent key opts st
        if ali then input := rvC.vin
        st := rvC.st
        match rvC.r with
        | .failure _ => return ⟨rvC.r, input, false, st⟩
        | .success v2 =>
          result := v2
          ali := ali && rvC.ali
      if isObjectV result && isComposition schema then
        let rvP ← prev.resolveComposition schema result parent key opts st
        if ali then input := rvP.vin
        st := rvP.st
        match rvP.r with
        | .failure _ => return ⟨rvP.r, input, false, st⟩
        | .success v2 =>
          result := v2
          ali := ali && rvP.ali
      match schema.c.type with
      | none => return ⟨.success result, input, ali, st⟩
      | some (.multi types) =>
        match getValueType result types with
        | none =>
          let (r, st2) := mkFailure
            [{ message := "Value must be one of type: " ++ typeJoinComma types }] st
          return ⟨r, input, false, st2⟩
        | some vt => do
          let typeSchema := filterProps (Schema.mk { schema.c with type := some (.single vt) }) vt
          let rvM ← prev.internalResolveValues typeSchema result parent key opts st
          if ali then input := rvM.vin
          return ⟨rvM.r, input, ali && rvM.ali, rvM.st⟩
      | some (.single _) => do
        let rvT ← prev.resolveTypeDispatch schema result parent key opts st
        if ali then input := rvT.vin
        return ⟨rvT.r, input, ali && rvT.ali, rvT.st⟩


/-- Out of fuel: every function answers `none`. -/
def noFuns : Funs where
  evaluateCondition := fun _ _ _ _ _ _ => none
  evalCondItemsLoop := fun _ _ _ _ _ _ _ => none
  evalCondPropsLoop := fun _ _ _ _ _ _ => none
  resolveConditional := fun _ _ _ _ _ _ => none
  resolveAllOf := fun _ _ _ _ _ _ => none
  resolveAllOfLoop := fun _ _ _ _ _ _ _ _ => none
  resolveAnyOf := fun _ _ _ _ _ _ => none
  resolveAnyOfLoop := fun _ _ _ _ _ _ => none
  resolveOneOf := fun _ _ _ _ _ _ => none
  resolveOneOfLoop := fun _ _ _ _ _ _ _ _ => none
  resolveNot := fun _ _ _ _ _ _ => none
  resolveComposition := fun _ _ _ _ _ _ => none
  resolveArray := fun _ _ _ _ _ _ => none
  resolveContainsLoop := fun _ _ _ _ _ _ _ => none
  resolveArrayItems := fun _ _ _ _ _ _ => none
  tupleItemsLoop := fun _ _ _ _ _ _ _ _ _ => none
  mixedItemsLoop := fun _ _ _ _ _ _ _ => none
  resolveObject := fun _ _ _ _ _ _ => none
  propertyNamesLoop := fun _ _ _ _ _ _ _ => none
  resolveObjectProperties := fun _ _ _ _ _ _ => none
  objPropsLoop := fun _ _ _ _ _ _ _ => none
  resolvePatternProperties := fun _ _ _ _ _ _ _ => none
  patPropsOuterLoop := fun _ _ _ _ _ _ _ => none
  patPropsInnerLoop := fun _ _ _ _ _ _ _ _ _ => none
  resolveAdditionalProperties := fun _ _ _ _ _ _ _ => none
  addlPropsLoop := fun _ _ _ _ _ _ _ _ => none
  resolveDependentSchemas := fun _ _ _ _ _ _ _ => none
  resolveValue := fun _ _ _ _ _ _ => none
  resolveTypeDispatch := fun _ _ _ _ _ _ => none
  internalResolveValues := fun _ _ _ _ _ _ => none

/-- One fuel level of the resolver. -/
def stepFuns (fuel : Nat) (prev : Funs) : Funs where
  evaluateCondition := evaluateConditionF fuel prev
  evalCondItemsLoop := evalCondItemsLoopF fuel prev
  evalCondPropsLoop := evalCondPropsLoopF fuel prev
  resolveConditional := resolveConditionalF fuel prev
  resolveAllOf := resolveAllOfF fuel prev
  resolveAllOfLoop := resolveAllOfLoopF fuel prev
  resolveAnyOf := resolveAnyOfF fuel prev
  resolveAnyOfLoop := resolveAnyOfLoopF fuel prev
  resolveOneOf := resolveOneOfF fuel prev
  resolveOneOfLoop := resolveOneOfLoopF fuel prev
  resolveNot := resolveNotF fuel prev
  resolveComposition := resolveCompositionF fuel prev
  resolveArray := resolveArrayF fuel prev
  resolveContainsLoop := resolveContainsLoopF fuel prev
  resolveArrayItems := resolveArrayItemsF fuel prev
  tupleItemsLoop := tupleItemsLoopF fuel prev
  mixedItemsLoop := mixedItemsLoopF fuel prev
  resolveObject := resolveObjectF fuel prev
  propertyNamesLoop := propertyNamesLoopF fuel prev
  resolveObjectProperties := resolveObjectPropertiesF fuel prev
  objPropsLoop := objPropsLoopF fuel prev
  resolvePatternProperties := resolvePatternPropertiesF fuel prev
  patPropsOuterLoop := patPropsOuterLoopF fuel prev
  patPropsInnerLoop := patPropsInnerLoopF fuel prev
  resolveAdditionalProperties := resolveAdditionalPropertiesF fuel prev
  addlPropsLoop := addlPropsLoopF fuel prev
  resolveDependentSchemas := resolveDependentSchemasF fuel prev
  resolveValue := resolveValueF fuel prev
  resolveTypeDispatch := resolveTypeDispatchF fuel prev
  internalResolveValues := internalResolveValuesF fuel prev

/-- The resolver at a given amount of fuel. -/
def funsAt : Nat → Funs
  | 0 => noFuns
  | fuel + 1 => stepFuns fuel (funsAt fuel)

/-- `evaluateCondition` of the source, at explicit fuel. -/
def evaluateCondition (fuel : Nat) : Schema → Option Val → Schema → Option String → Opts → RState → Option (Bool × Option Val × RState) :=
  fun a0 a1 a2 a3 a4 a5 => (funsAt fuel).evaluateCondition a0 a1 a2 a3 a4 a5

/-- `evalCondItemsLoop` of the source, at explicit fuel. -/
def evalCondItemsLoop (fuel : Nat) : Schema → Schema → Option String → Opts → Option Val → List Nat → RState → Option (Bool × Option Val × RState) :=
  fun a0 a1 a2 a3 a4 a5 a6 => (funsAt fuel).evalCondItemsLoop a0 a1 a2 a3 a4 a5 a6

/-- `evalCondPropsLoop` of the source, at explicit fuel. -/
def evalCondPropsLoop (fuel : Nat) : List (String × Schema) → Schema → Schema → Opts → Option Val → RState → Option (Bool × Option Val × RState) :=
  fun a0 a1 a2 a3 a4 a5 => (funsAt fuel).evalCondPropsLoop a0 a1 a2 a3 a4 a5

/-- `resolveConditional` of the source, at explicit fuel. -/
def resolveConditional (fuel : Nat) : Schema → Option Val → Schema → Option String → Opts → RState → Option RV :=
  fun a0 a1 a2 a3 a4 a5 => (funsAt fuel).resolveConditional a0 a1 a2 a3 a4 a5

/-- `resolveAllOf` of the source, at explicit fuel. -/
def resolveAllOf (fuel : Nat) : Schema → Option Val → Schema → Option String → Opts → RState → Option RV :=
  fun a0 a1 a2 a3 a4 a5 => (funsAt fuel).resolveAllOf a0 a1 a2 a3 a4 a5

/-- `resolveAllOfLoop` of the source, at explicit fuel. -/
def resolveAllOfLoop (fuel : Nat) : List Schema → Schema → Option Val → Schema → Opts → RState → List VErr → Val → Option (List VErr × Val × Option Val × RState) :=
  fun a0 a1 a2 a3 a4 a5 a6 a7 => (funsAt fuel).resolveAllOfLoop a0 a1 a2 a3 a4 a5 a6 a7

/-- `resolveAnyOf` of the source, at explicit fuel. -/
def resolveAnyOf (fuel : Nat) : Schema → Option Val → Schema → Option String → Opts → RState → Option RV :=
  fun a0 a1 a2 a3 a4 a5 => (funsAt fuel).resolveAnyOf a0 a1 a2 a3 a4 a5

/-- `resolveAnyOfLoop` of the source, at explicit fuel. -/
def resolveAnyOfLoop (fuel : Nat) : List Schema → Schema → Option Val → Schema → Opts → RState → Option (Sum RV (Option Val × RState)) :=
  fun a0 a1 a2 a3 a4 a5 => (funsAt fuel).resolveAnyOfLoop a0 a1 a2 a3 a4 a5

/-- `resolveOneOf` of the source, at explicit fuel. -/
def resolveOneOf (fuel : Nat) : Schema → Option Val → Schema → Option String → Opts → RState → Option RV :=
  fun a0 a1 a2 a3 a4 a5 => (funsAt fuel).resolveOneOf a0 a1 a2 a3 a4 a5

/-- `resolveOneOfLoop` of the source, at explicit fuel. -/
def resolveOneOfLoop (fuel : Nat) : List Schema → Schema → Option Val → Schema → Option String → Opts → RState → List (Res × Bool × Schema) → Option (List (Res × Bool × Schema) × Option Val × RState) :=
  fun a0 a1 a2 a3 a4 a5 a6 a7 => (funsAt fuel).resolveOneOfLoop a0 a1 a2 a3 a4 a5 a6 a7

/-- `resolveNot` of the source, at explicit fuel. -/
def resolveNot (fuel : Nat) : Schema → Option Val → Schema → Option String → Opts → RState → Option RV :=
  fun a0 a1 a2 a3 a4 a5 => (funsAt fuel).resolveNot a0 a1 a2 a3 a4 a5

/-- `resolveComposition` of the source, at explicit fuel. -/
def resolveComposition (fuel : Nat) : Schema → Option Val → Schema → Option String → Opts → RState → Option RV :=
  fun a0 a1 a2 a3 a4 a5 => (funsAt fuel).resolveComposition a0 a1 a2 a3 a4 a5

/-- `resolveArray` of the source, at explicit fuel. -/
def resolveArray (fuel : Nat) : Schema → Option Val → Schema → Option String → Opts → RState → Option RV :=
  fun a0 a1 a2 a3 a4 a5 => (funsAt fuel).resolveArray a0 a1 a2 a3 a4 a5

/-- `resolveContainsLoop` of the source, at explicit fuel. -/
def resolveContainsLoop (fuel : Nat) : Schema → Schema → Option String → Opts → Option Val → List Nat → RState → Option (Bool × Option Val × RState) :=
  fun a0 a1 a2 a3 a4 a5 a6 => (funsAt fuel).resolveContainsLoop a0 a1 a2 a3 a4 a5 a6

/-- `resolveArrayItems` of the source, at explicit fuel. -/
def resolveArrayItems (fuel : Nat) : Schema → Option Val → Schema → Option String → Opts → RState → Option RV :=
  fun a0 a1 a2 a3 a4 a5 => (funsAt fuel).resolveArrayItems a0 a1 a2 a3 a4 a5

/-- `tupleItemsLoop` of the source, at explicit fuel. -/
def tupleItemsLoop (fuel : Nat) : List Schema → Option (Sum Bool Schema) → Schema → Option Val → List Nat → Opts → RState → List (Option Val) → List VErr → Option (List (Option Val) × List VErr × Option Val × RState) :=
  fun a0 a1 a2 a3 a4 a5 a6 a7 a8 => (funsAt fuel).tupleItemsLoop a0 a1 a2 a3 a4 a5 a6 a7 a8

/-- `mixedItemsLoop` of the source, at explicit fuel. -/
def mixedItemsLoop (fuel : Nat) : Schema → Option Val → List Nat → Opts → RState → List (Option Val) → List VErr → Option (List (Option Val) × List VErr × Option Val × RState) :=
  fun a0 a1 a2 a3 a4 a5 a6 => (funsAt fuel).mixedItemsLoop a0 a1 a2 a3 a4 a5 a6

/-- `resolveObject` of the source, at explicit fuel. -/
def resolveObject (fuel : Nat) : Schema → Option Val → Schema → Option String → Opts → RState → Option RV :=
  fun a0 a1 a2 a3 a4 a5 => (funsAt fuel).resolveObject a0 a1 a2 a3 a4 a5

/-- `propertyNamesLoop` of the source, at explicit fuel. -/
def propertyNamesLoop (fuel : Nat) : Schema → List String → Schema → Option String → Opts → RState → List VErr → Option (List VErr × RState) :=
  fun a0 a1 a2 a3 a4 a5 a6 => (funsAt fuel).propertyNamesLoop a0 a1 a2 a3 a4 a5 a6

/-- `resolveObjectProperties` of the source, at explicit fuel. -/
def resolveObjectProperties (fuel : Nat) : List (String × Schema) → Option Val → Schema → Option String → Opts → RState → Option RV :=
  fun a0 a1 a2 a3 a4 a5 => (funsAt fuel).resolveObjectProperties a0 a1 a2 a3 a4 a5

/-- `objPropsLoop` of the source, at explicit fuel. -/
def objPropsLoop (fuel : Nat) : List (String × Schema) → Option Val → Schema → Opts → RState → List (String × Val) → List VErr → Option (List (String × Val) × List VErr × Option Val × RState) :=
  fun a0 a1 a2 a3 a4 a5 a6 => (funsAt fuel).objPropsLoop a0 a1 a2 a3 a4 a5 a6

/-- `resolvePatternProperties` of the source, at explicit fuel. -/
def resolvePatternProperties (fuel : Nat) : Schema → Option Val → Option Val → Schema → Option String → Opts → RState → Option RV :=
  fun a0 a1 a2 a3 a4 a5 a6 => (funsAt fuel).resolvePatternProperties a0 a1 a2 a3 a4 a5 a6

/-- `patPropsOuterLoop` of the source, at explicit fuel. -/
def patPropsOuterLoop (fuel : Nat) : List (String × Schema) → Option Val → List (String × Val) → Schema → Opts → RState → List VErr → Option (List (String × Val) × List VErr × Option Val × RState) :=
  fun a0 a1 a2 a3 a4 a5 a6 => (funsAt fuel).patPropsOuterLoop a0 a1 a2 a3 a4 a5 a6

/-- `patPropsInnerLoop` of the source, at explicit fuel. -/
def patPropsInnerLoop (fuel : Nat) : String → Schema → List String → Option Val → List (String × Val) → Schema → Opts → RState → List VErr → Option (List (String × Val) × List VErr × Option Val × RState) :=
  fun a0 a1 a2 a3 a4 a5 a6 a7 a8 => (funsAt fuel).patPropsInnerLoop a0 a1 a2 a3 a4 a5 a6 a7 a8

/-- `resolveAdditionalProperties` of the source, at explicit fuel. -/
def resolveAdditionalProperties (fuel : Nat) : Schema → Option Val → Option Val → Schema → Option String → Opts → RState → Option RV :=
  fun a0 a1 a2 a3 a4 a5 a6 => (funsAt fuel).resolveAdditionalProperties a0 a1 a2 a3 a4 a5 a6

/-- `addlPropsLoop` of the source, at explicit fuel. -/
def addlPropsLoop (fuel : Nat) : Option (Sum Bool Schema) → List (String × Val) → Option Val → List (String × Val) → Schema → Opts → RState → List VErr → Option (List (String × Val) × List VErr × Option Val × RState) :=
  fun a0 a1 a2 a3 a4 a5 a6 a7 => (funsAt fuel).addlPropsLoop a0 a1 a2 a3 a4 a5 a6 a7

/-- `resolveDependentSchemas` of the source, at explicit fuel. -/
def resolveDependentSchemas (fuel : Nat) : Schema → Option Val → Option Val → Schema → Option String → Opts → RState → Option RV :=
  fun a0 a1 a2 a3 a4 a5 a6 => (funsAt fuel).resolveDependentSchemas a0 a1 a2 a3 a4 a5 a6

/-- `resolveValue` of the source, at explicit fuel. -/
def resolveValue (fuel : Nat) : Schema → Option Val → Schema → Option String → Opts → RState → Option RV :=
  fun a0 a1 a2 a3 a4 a5 => (funsAt fuel).resolveValue a0 a1 a2 a3 a4 a5

/-- `resolveTypeDispatch` of the source, at explicit fuel. -/
def resolveTypeDispatch (fuel : Nat) : Schema → Option Val → Schema → Option String → Opts → RState → Option RV :=
  fun a0 a1 a2 a3 a4 a5 => (funsAt fuel).resolveTypeDispatch a0 a1 a2 a3 a4 a5

/-- `internalResolveValues` of the source, at explicit fuel. -/
def internalResolveValues (fuel : Nat) : Schema → Option Val → Schema → Option String → Opts → RState → Option RV :=
  fun a0 a1 a2 a3 a4 a5 => (funsAt fuel).internalResolveValues a0 a1 a2 a3 a4 a5


/-! The public entry point (`resolveValues` of `part_002`) with its
top-level error deduplication and disposability filter. -/

/-- `error.path.join('') === 'oneOf'`. -/
def isOneOfError (e : VErr) : Bool := String.join e.path = "oneOf"

/-- `error.message.startsWith('Missing required')`. -/
def isRequiredErrorMsg (e : VErr) : Bool := strStartsWith e.message "Missing required"

/-- A disposable error: a bare oneOf-composition error or a missing
required error. -/
def isDisposableError (e : VErr) : Bool := isOneOfError e || isRequiredErrorMsg e

/-- `error.path.includes('oneOf')`. -/
def isInsideOneOf (e : VErr) : Bool := e.path.contains "oneOf"

/-- The filter keeps deeper-pathed errors outside oneOf, and everything
non-disposable. -/
def keepError (e : VErr) : Bool :=
  (decide (e.path.length > 1) && !isInsideOneOf e) || !isDisposableError e

/-- Deduplicate by message text, first occurrence winning. -/
def dedupByMessage (errs : List VErr) : List VErr :=
  (errs.foldl (fun (acc : List VErr × List String) e =>
    if acc.2.contains e.message then acc else (acc.1 ++ [e], acc.2 ++ [e.message])) ([], [])).1

/-- `resolveValues(schema, values)`: run the resolver from a fresh
state; on failure, report the deduplicated and disposability-filtered
contents of the error accumulator. -/
def resolveValues (fuel : Nat) (schema : Schema) (values : Option Val) :
    Option ResolveOutcome := do
  let rv ← internalResolveValues fuel schema values schema none {} {}
  let errors0 := dedupByMessage rv.st.errors
  let errors :=
    if decide (errors0.length > 1) && errors0.any isDisposableError && errors0.any keepError then
      errors0.filter keepError
    else errors0
  match rv.r with
  | .success v => some (.ok v)
  | .failure _ => some (.err errors)


/-! The standalone probe validator fragment the claims compare against
(`part_004`): `createError` and `validateFormat`. -/

/-- `createError(path, message)`. -/
def createError (path : List String) (message : String) : VErr :=
  { path := path, message := message }

/-- `validateFormat` of the standalone validator: note its uuid pattern
is the canonical five-group 8-4-4-4-12 shape, and its ipv4 check is the
digit-run pattern alone, with no octet bound. -/
def validateFormat (value : String) (format : String) (path : List String) : List VErr :=
  if format = "date-time" then
    if !dateParseValid value then [createError path "Invalid date-time format"] else []
  else if format = "date" then
    if !datePattern value then [createError path "Invalid date format"] else []
  else if format = "time" then
    if !timePattern value then [createError path "Invalid time format"] else []
  else if format = "email" then
    if !emailPattern value then [createError path "Invalid email format"] else []
  else if format = "ipv4" then
    if !ipv4Pattern value then [createError path "Invalid IPv4 format"] else []
  else if format = "uuid" then
    if !uuidPattern5 value then [createError path "Invalid UUID format"] else []
  else []


/-! ## Concrete schemas and values exercised by the claim analyses -/

/-- `{type:'string'}`. -/
def strSchema : Schema := Schema.mk { type := some (.single "string") }

/-- `{type:'number'}`. -/
def numSchema : Schema := Schema.mk { type := some (.single "number") }

/-- `{type:'integer'}`. -/
def intSchema : Schema := Schema.mk { type := some (.single "integer") }

/-- `{type:'boolean'}`. -/
def boolSchema : Schema := Schema.mk { type := some (.single "boolean") }

/-- A oneOf branch whose probe failure is suppressed yet surfaced:
`{properties:{k:{}}, not:{type:'object'}}`. -/
def c1Branch : Schema := Schema.mk {
  properties := some [("k", Schema.empty)],
  notS := some (Schema.mk { type := some (.single "object") }) }

/-- `{oneOf:[c1Branch, c1Branch]}`. -/
def c1Schema : Schema := Schema.mk { oneOf := some [c1Branch, c1Branch] }

/-- `{oneOf:[A, B]}` with nothing else set (in particular no default). -/
def oneOfPair (A B : Schema) : Schema := Schema.mk { oneOf := some [A, B] }

/-- The resolver state as `resolveOneOf` receives it from a fresh
top-level call: the composition marker pushed onto an empty stack. -/
def oneOfSt : RState := { stack := ["oneOf"] }

/-- `{anyOf: subs}` with nothing else set. -/
def anyOfSchema (subs : List Schema) : Schema := Schema.mk { anyOf := some subs }

/-- `{not:{required: ps}}` as a standalone negated schema node. -/
def notRequiredOf (ps : List String) : Schema := Schema.mk { required := some ps }

/-- A schema carrying `properties` and a direct `not:{required: ps}`. -/
def directNotSchema (P : List (String × Schema)) (ps : List String) : Schema :=
  Schema.mk { properties := some P, notS := some (notRequiredOf ps) }

/-- The spec scenario `{properties:{a,b}, allOf:[{not:{required:['a','b']}}]}`
(with string-typed properties and an object type, as in the spec text). -/
def c3Schema : Schema := Schema.mk {
  type := some (.single "object"),
  properties := some [("a", strSchema), ("b", strSchema)],
  allOf := some [Schema.mk { notS := some (notRequiredOf ["a", "b"]) }] }

/-- An `if` schema whose condition property carries a default:
`{properties:{x:{const:'a', default:'a'}}}`. -/
def c4If : Schema := Schema.mk {
  properties := some [("x", Schema.mk { constV := some (.str "a"), default := some (.str "a") })] }

/-- `{type:'object', if: c4If, then:{properties:{y:{type:'string', default:'z'}}}}`. -/
def c4Pipeline : Schema := Schema.mk {
  type := some (.single "object"),
  ifS := some c4If,
  thenS := some (Schema.mk {
    properties := some [("y", Schema.mk {
      type := some (.single "string"), default := some (.str "z") })] }) }

/-- An object branch whose property `p` has a default:
`{type:'object', properties:{p:{type:'string', default:'d'}}}`. -/
def c6Branch : Schema := Schema.mk {
  type := some (.single "object"),
  properties := some [("p", Schema.mk {
    type := some (.single "string"), default := some (.str "d") })] }

/-- `{anyOf:[c6Branch]}`: a single-element anyOf. -/
def c6Single : Schema := Schema.mk { anyOf := some [c6Branch] }

/-- Like `c6Branch` but with `p` required, so that probing it against
`{}` injects the default in place. -/
def c6BranchReq : Schema := Schema.mk {
  type := some (.single "object"),
  required := some ["p"],
  properties := some [("p", Schema.mk {
    type := some (.single "string"), default := some (.str "d") })] }

/-- `{anyOf:[c6BranchReq, {type:'number'}]}`. -/
def c6Mut : Schema := Schema.mk { anyOf := some [c6BranchReq, numSchema] }

/-- `{anyOf:[{type:'string'}, {type:'boolean'}]}` (no default). -/
def c6NoPass : Schema := Schema.mk { anyOf := some [strSchema, boolSchema] }

/-- `{anyOf:[{type:'string'}, {type:'boolean'}], default: 7}`. -/
def c6Default : Schema := Schema.mk {
  anyOf := some [strSchema, boolSchema],
  default := some (.num 7) }

/-- A tuple-items array schema `{type:'array', items:[{type:'string'}]}`
with the given `additionalItems`. -/
def c7Tuple (ai : Option (Sum Bool Schema)) : Schema := Schema.mk {
  type := some (.single "array"),
  items := some (.inr [strSchema]),
  additionalItems := ai }

/-- The two-element array value `['a', 'b']`: one element past the tuple. -/
def c7Value : Option Val := some (.arr [.str "a", .str "b"])

/-- Concrete scenario A of the spec. -/
def c8Schema : Schema := Schema.mk {
  type := some (.single "object"),
  required := some ["username", "email", "age"],
  properties := some [
    ("username", Schema.mk {
      type := some (.single "string"), minLength := some 3, maxLength := some 20 }),
    ("email", Schema.mk { type := some (.single "string"), format := some "email" }),
    ("age", Schema.mk { type := some (.single "integer"), minimum := some 18 })] }

/-- `{username:'j', email:'not-an-email', age:16}`. -/
def c8Value : Option Val := some (.obj
  [("username", .str "j"), ("email", .str "not-an-email"), ("age", .num 16)])

/-- `{oneOf:[{type:'number'}, {type:'number', minimum:0}], default:'x'}`:
a schema whose resolution is not idempotent. -/
def c9Schema : Schema := Schema.mk {
  oneOf := some [numSchema, Schema.mk { type := some (.single "number"), minimum := some 0 }],
  default := some (.str "x") }

/-- `{type:'string', format:'uuid'}`. -/
def uuidSchema : Schema := Schema.mk {
  type := some (.single "string"), format := some "uuid" }

/-- A canonical five-group 8-4-4-4-12 UUID string. -/
def uuidCanonical : String := "123e4567-e89b-12d3-a456-426614174000"

/-- A four-group 8-4-4-12 hex string (not a canonical UUID). -/
def uuidFourGroup : String := "12345678-1234-1234-123456789012"

/-- Join character-list parts with a separator: the inverse of
`splitOnChar`. -/
def joinWithChar (sep : Char) : List (List Char) → List Char
  | [] => []
  | [p] => p
  | p :: ps => p ++ sep :: joinWithChar sep ps

/-- The shape `^[0-9a-f]{8}-[0-9a-f]{4}-[0-9a-f]{4}-[0-9a-f]{12}$`
(case-insensitive) written out as a decomposition: four all-hex groups
of lengths 8, 4, 4 and 12 joined by literal hyphens. This is the
spec-side reading of the resolver uuid pattern, to be proved equivalent
to the code-side `uuidPattern4`. -/
def uuid4Shape (s : String) : Prop :=
  ∃ a b c d : List Char,
    s.data = a ++ '-' :: (b ++ '-' :: (c ++ '-' :: d)) ∧
    a.length = 8 ∧ b.length = 4 ∧ c.length = 4 ∧ d.length = 12 ∧
    a.all isHexDigit ∧ b.all isHexDigit ∧ c.all isHexDigit ∧ d.all isHexDigit


/-! ## Unfolding lemmas for the fuel-indexed resolver -/

theorem funsAt_succ (n : Nat) : funsAt (n + 1) = stepFuns n (funsAt n) := rfl

theorem internal_succ (n : Nat) :
    internalResolveValues (n + 1) = internalResolveValuesF n (funsAt n) := rfl

theorem resolveValue_succ (n : Nat) :
    resolveValue (n + 1) = resolveValueF n (funsAt n) := rfl

theorem resolveComposition_succ (n : Nat) :
    resolveComposition (n + 1) = resolveCompositionF n (funsAt n) := rfl

theorem resolveOneOf_succ (n : Nat) :
    resolveOneOf (n + 1) = resolveOneOfF n (funsAt n) := rfl

theorem resolveOneOfLoop_succ (n : Nat) :
    resolveOneOfLoop (n + 1) = resolveOneOfLoopF n (funsAt n) := rfl

theorem resolveAnyOf_succ (n : Nat) :
    resolveAnyOf (n + 1) = resolveAnyOfF n (funsAt n) := rfl

theorem resolveAnyOfLoop_succ (n : Nat) :
    resolveAnyOfLoop (n + 1) = resolveAnyOfLoopF n (funsAt n) := rfl

theorem resolveNot_succ (n : Nat) :
    resolveNot (n + 1) = resolveNotF n (funsAt n) := rfl

theorem resolveTypeDispatch_succ (n : Nat) :
    resolveTypeDispatch (n + 1) = resolveTypeDispatchF n (funsAt n) := rfl

theorem evaluateCondition_succ (n : Nat) :
    evaluateCondition (n + 1) = evaluateConditionF n (funsAt n) := rfl

theorem evalCondPropsLoop_succ (n : Nat) :
    evalCondPropsLoop (n + 1) = evalCondPropsLoopF n (funsAt n) := rfl

theorem tupleItemsLoop_succ (n : Nat) :
    tupleItemsLoop (n + 1) = tupleItemsLoopF n (funsAt n) := rfl

theorem at_internal (n : Nat) :
    (funsAt n).internalResolveValues = internalResolveValues n := rfl

theorem at_resolveValue (n : Nat) :
    (funsAt n).resolveValue = resolveValue n := rfl

theorem at_resolveComposition (n : Nat) :
    (funsAt n).resolveComposition = resolveComposition n := rfl

theorem at_resolveOneOf (n : Nat) :
    (funsAt n).resolveOneOf = resolveOneOf n := rfl

theorem at_resolveOneOfLoop (n : Nat) :
    (funsAt n).resolveOneOfLoop = resolveOneOfLoop n := rfl

theorem at_resolveAnyOf (n : Nat) :
    (funsAt n).resolveAnyOf = resolveAnyOf n := rfl

theorem at_resolveAnyOfLoop (n : Nat) :
    (funsAt n).resolveAnyOfLoop = resolveAnyOfLoop n := rfl

theorem at_resolveNot (n : Nat) :
    (funsAt n).resolveNot = resolveNot n := rfl

theorem at_resolveTypeDispatch (n : Nat) :
    (funsAt n).resolveTypeDispatch = resolveTypeDispatch n := rfl

theorem at_evalCondPropsLoop (n : Nat) :
    (funsAt n).evalCondPropsLoop = evalCondPropsLoop n := rfl

theorem at_tupleItemsLoop (n : Nat) :
    (funsAt n).tupleItemsLoop = tupleItemsLoop n := rfl


/-! ## C1, C8, C9: the concrete end-to-end evaluations -/

set_option maxHeartbeats 1600000 in
/-- C1: refuted on the code side (code bug). The claim says a result
with `ok:false` always carries a non-empty errors list. Resolving
`{oneOf:[B,B]}` with `B = {properties:{k:{}}, not:{type:'object'}}`
against `{k:1}` returns a Failure whose error list is empty: both
branch failures are raised at stack depth below `oneOf` and so are
suppressed from the accumulator, the zero-pass heuristic then surfaces
a structurally matching branch failure without recording any message,
and the final `resolveValues` reports `ok:false` with `errors = []`. -/
theorem c1_failure_with_empty_errors :
    resolveValues 25 c1Schema (some (.obj [("k", .num 1)])) = some (.err []) := by rfl

set_option maxHeartbeats 1600000 in
/-- C8: confirmed. Concrete scenario A: the username length, email
format and age minimum violations survive the top-level deduplication
and disposability filter, in declaration order, and nothing else does. -/
theorem c8_scenario_exact_errors :
    resolveValues 25 c8Schema c8Value = some (.err
      [{ message := "String length must be >= 3", path := ["username"] },
       { message := "Invalid email format", path := ["email"] },
       { message := "Value must be >= 18", path := ["age"] }]) := by rfl

set_option maxHeartbeats 1600000 in
/-- C9: refuted on the code side (code bug). The claim says resolution
is idempotent: a successful result resolved again returns itself. For
`{oneOf:[{type:'number'}, {type:'number', minimum:0}], default:'x'}`,
resolving `5` succeeds with the default `'x'` (both branches pass, so
the oneOf is ambiguous and falls back to the default, unvalidated), but
resolving `'x'` fails: the default is not a fixed point. -/
theorem c9_resolution_not_idempotent :
    resolveValues 25 c9Schema (some (.num 5)) = some (.ok (some (.str "x"))) ∧
    resolveValues 25 c9Schema (some (.str "x")) = some (.err
      [{ message := "Value must be a number", path := ["oneOf"] },
       { message := "Value must match exactly one schema in oneOf", path := ["oneOf"] }]) :=
  ⟨by rfl, by rfl⟩


/-! ## C10: the two uuid checkers and their disagreement -/

theorem splitOnChar_ne_nil (sep : Char) (l : List Char) : splitOnChar sep l ≠ [] := by
  induction l with
  | nil => simp [splitOnChar]
  | cons c rest ih =>
    simp only [splitOnChar]
    split
    · simp
    · cases h : splitOnChar sep rest with
      | nil => exact absurd h ih
      | cons p ps => simp

theorem joinWithChar_splitOnChar (sep : Char) (l : List Char) :
    joinWithChar sep (splitOnChar sep l) = l := by
  induction l with
  | nil => rfl
  | cons c rest ih =>
    simp only [splitOnChar]
    by_cases hc : c = sep
    · rw [if_pos hc]
      cases hp : splitOnChar sep rest with
      | nil => exact absurd hp (splitOnChar_ne_nil sep rest)
      | cons p ps =>
        rw [hp] at ih
        show sep :: joinWithChar sep (p :: ps) = c :: rest
        rw [ih, hc]
    · rw [if_neg hc]
      cases hp : splitOnChar sep rest with
      | nil => exact absurd hp (splitOnChar_ne_nil sep rest)
      | cons p ps =>
        rw [hp] at ih
        cases ps with
        | nil => show c :: p = c :: rest; rw [show joinWithChar sep [p] = p from rfl] at ih; rw [ih]
        | cons q qs =>
          show (c :: p) ++ sep :: joinWithChar sep (q :: qs) = c :: rest
          rw [show joinWithChar sep (p :: q :: qs) = p ++ sep :: joinWithChar sep (q :: qs) from rfl] at ih
          rw [← ih]
          simp

theorem splitOnChar_no_sep (sep : Char) (l : List Char) (h : ∀ c ∈ l, c ≠ sep) :
    splitOnChar sep l = [l] := by
  induction l with
  | nil => rfl
  | cons c rest ih =>
    simp only [splitOnChar]
    rw [if_neg (h c (by simp)), ih (fun x hx => h x (by simp [hx]))]

theorem splitOnChar_append (sep : Char) (a t : List Char) (h : ∀ c ∈ a, c ≠ sep) :
    splitOnChar sep (a ++ sep :: t) = a :: splitOnChar sep t := by
  induction a with
  | nil => simp [splitOnChar]
  | cons c a ih =>
    simp only [List.cons_append, splitOnChar, List.append_eq]
    rw [if_neg (h c (by simp)), ih (fun x hx => h x (by simp [hx]))]

theorem isHexDigit_ne_dash {c : Char} (h : isHexDigit c = true) : c ≠ '-' := by
  intro he
  subst he
  exact absurd h (by decide)

set_option maxHeartbeats 1600000 in
/-- C10: confirmed. The resolver accepts under `format:'uuid'` exactly
the strings made of four hyphen-separated all-hex groups of lengths
8-4-4-12; the canonical five-group UUID string is rejected by
`resolveValues` with an `Invalid uuid format` error while the
standalone probe validator accepts it, and conversely the four-group
string is accepted by `resolveValues` while the probe validator rejects
it — the two components disagree on canonical UUIDs. -/
theorem c10_uuid_checkers_disagree :
    (∀ s : String, isValidFormat s "uuid" = true ↔ uuid4Shape s) ∧
    resolveValues 25 uuidSchema (some (.str uuidCanonical)) =
      some (.err [{ message := "Invalid uuid format", path := [] }]) ∧
    validateFormat uuidCanonical "uuid" [] = [] ∧
    resolveValues 25 uuidSchema (some (.str uuidFourGroup)) =
      some (.ok (some (.str uuidFourGroup))) ∧
    validateFormat uuidFourGroup "uuid" [] = [createError [] "Invalid UUID format"] := by
  refine ⟨?_, by rfl, by rfl, by rfl, by rfl⟩
  intro s
  have hval : isValidFormat s "uuid" = uuidPattern4 s := by rfl
  rw [hval]
  constructor
  · intro h
    unfold uuidPattern4 strSplitOn at h
    cases hp : splitOnChar '-' s.data with
    | nil => exact absurd hp (splitOnChar_ne_nil _ _)
    | cons p1 t1 =>
      cases t1 with
      | nil => rw [hp] at h; exact absurd h (by simp)
      | cons p2 t2 =>
        cases t2 with
        | nil => rw [hp] at h; exact absurd h (by simp)
        | cons p3 t3 =>
          cases t3 with
          | nil => rw [hp] at h; exact absurd h (by simp)
          | cons p4 t4 =>
            cases t4 with
            | cons p5 t5 => rw [hp] at h; exact absurd h (by simp)
            | nil =>
              rw [hp] at h
              simp only [List.map_cons, List.map_nil, Bool.and_eq_true] at h
              obtain ⟨⟨⟨⟨⟨⟨⟨h8, h4b⟩, h4c⟩, h12⟩, hxa⟩, hxb⟩, hxc⟩, hxd⟩ := h
              have hjoin := joinWithChar_splitOnChar '-' s.data
              rw [hp] at hjoin
              refine ⟨p1, p2, p3, p4, ?_, ?_, ?_, ?_, ?_, ?_, ?_, ?_, ?_⟩
              · rw [← hjoin]; rfl
              · exact Nat.eq_of_beq_eq_true (by simpa using h8)
              · exact Nat.eq_of_beq_eq_true (by simpa using h4b)
              · exact Nat.eq_of_beq_eq_true (by simpa using h4c)
              · exact Nat.eq_of_beq_eq_true (by simpa using h12)
              · exact hxa
              · exact hxb
              · exact hxc
              · exact hxd
  · rintro ⟨a, b, c, d, hdata, ha8, hb4, hc4, hd12, hax, hbx, hcx, hdx⟩
    have hna : ∀ x ∈ a, x ≠ '-' := fun x hx =>
      isHexDigit_ne_dash (by exact (List.all_eq_true.mp hax x hx))
    have hnb : ∀ x ∈ b, x ≠ '-' := fun x hx =>
      isHexDigit_ne_dash (by exact (List.all_eq_true.mp hbx x hx))
    have hnc : ∀ x ∈ c, x ≠ '-' := fun x hx =>
      isHexDigit_ne_dash (by exact (List.all_eq_true.mp hcx x hx))
    have hnd : ∀ x ∈ d, x ≠ '-' := fun x hx =>
      isHexDigit_ne_dash (by exact (List.all_eq_true.mp hdx x hx))
    unfold uuidPattern4 strSplitOn
    rw [hdata, splitOnChar_append _ _ _ hna, splitOnChar_append _ _ _ hnb,
      splitOnChar_append _ _ _ hnc, splitOnChar_no_sep _ _ hnd]
    simp [String.length, allHex, ha8, hb4, hc4, hd12, hax, hbx, hcx, hdx]

/-- C10, witness: the accept side of the characterization at the
four-group string, by applying the claim theorem. -/
theorem c10_uuid_checkers_disagree_witness : uuid4Shape uuidFourGroup :=
  (c10_uuid_checkers_disagree.1 uuidFourGroup).mp (by rfl)


/-! ## C5: type merging in conjunction (allOf) mode -/

theorem contains_iff_mem (l : List String) (a : String) : l.contains a = true ↔ a ∈ l := by
  induction l with
  | nil => simp [List.contains]
  | cons x xs ih =>
    simp only [List.contains] at ih ⊢
    show (a == x || xs.elem a) = true ↔ _
    rw [Bool.or_eq_true, beq_iff_eq, List.mem_cons, ih]

/-- C5: confirmed. In conjunction (allOf) mode: when the intersection
of the two type lists is non-empty, the merged type lists exactly the
common members; when it is empty but each operand carries a numeric
member, the type collapses to `integer`; otherwise `mergeTypes` fails
with the `No valid types satisfy both schemas` error at path
`['merge']`, and (for operands with strictly unequal declared types)
`mergeSchemas` propagates exactly that error. -/
theorem c5_conjunction_type_merge (s1 s2 : Schema) (fuel : Nat) :
    ((schTypeList s1.c.type).filter (fun t => (schTypeList s2.c.type).contains t) ≠ [] →
      ∃ ty, mergeTypes s1 s2 ⟨some true, true⟩ = .inl ty ∧
        ∀ t, t ∈ schTypeList (some ty) ↔
          (t ∈ schTypeList s1.c.type ∧ t ∈ schTypeList s2.c.type)) ∧
    ((schTypeList s1.c.type).filter (fun t => (schTypeList s2.c.type).contains t) = [] →
      hasNumberTypes (schTypeList s1.c.type) = true →
      hasNumberTypes (schTypeList s2.c.type) = true →
      mergeTypes s1 s2 ⟨some true, true⟩ = .inl (.single "integer")) ∧
    ((schTypeList s1.c.type).filter (fun t => (schTypeList s2.c.type).contains t) = [] →
      ¬(hasNumberTypes (schTypeList s1.c.type) = true ∧
        hasNumberTypes (schTypeList s2.c.type) = true) →
      mergeTypes s1 s2 ⟨some true, true⟩ =
        .inr [{ message := "No valid types satisfy both schemas", path := ["merge"] }] ∧
      ∀ t1 t2, s1.c.type = some t1 → s2.c.type = some t2 → typesStrictNe t1 t2 = true →
        mergeSchemas (fuel + 1) ⟨some true, true⟩ s1 s2 =
          some (.inr [{ message := "No valid types satisfy both schemas", path := ["merge"] }])) := by
  refine ⟨?_, ?_, ?_⟩
  · intro hne
    unfold mergeTypes
    simp only []
    cases hi : (schTypeList s1.c.type).filter (fun t => (schTypeList s2.c.type).contains t) with
    | nil => exact absurd hi hne
    | cons t0 ts =>
      cases ts with
      | nil =>
        refine ⟨.single t0, by simp, ?_⟩
        intro t
        have hmem : t ∈ [t0] ↔ t ∈ (schTypeList s1.c.type).filter
            (fun t => (schTypeList s2.c.type).contains t) := by rw [hi]
        show t ∈ [t0] ↔ _
        rw [hmem, List.mem_filter]
        simp [contains_iff_mem]
      | cons t1 ts1 =>
        refine ⟨.multi (t0 :: t1 :: ts1), by simp, ?_⟩
        intro t
        have hmem : t ∈ t0 :: t1 :: ts1 ↔ t ∈ (schTypeList s1.c.type).filter
            (fun t => (schTypeList s2.c.type).contains t) := by rw [hi]
        show t ∈ t0 :: t1 :: ts1 ↔ _
        rw [hmem, List.mem_filter]
        simp [contains_iff_mem]
  · intro hempty h1 h2
    unfold mergeTypes
    simp only []
    rw [hempty]
    simp [h1, h2]
  · intro hempty hnotnum
    have hmt : mergeTypes s1 s2 ⟨some true, true⟩ =
        .inr [{ message := "No valid types satisfy both schemas", path := ["merge"] }] := by
      unfold mergeTypes
      simp only []
      rw [hempty]
      cases h1 : hasNumberTypes (schTypeList s1.c.type) with
      | false => simp
      | true =>
        cases h2 : hasNumberTypes (schTypeList s2.c.type) with
        | false => simp
        | true => exact absurd ⟨h1, h2⟩ hnotnum
    refine ⟨hmt, ?_⟩
    intro t1 t2 ht1 ht2 hne
    show mergeSchemas (fuel + 1) ⟨some true, true⟩ s1 s2 = _
    unfold mergeSchemas
    simp only [ht1, ht2, hne, hmt]
    rfl

/-- C5, witness: the three branches at concrete schemas — intersection
`['number']` of `['string','number']` and `['number']`; the numeric
collapse of `number` against `integer`; and the failing merge of
`string` against `number`. -/
theorem c5_conjunction_type_merge_witness :
    (∃ ty, mergeTypes (Schema.mk { type := some (.multi ["string", "number"]) })
        (Schema.mk { type := some (.multi ["number"]) }) ⟨some true, true⟩ = .inl ty ∧
      ∀ t, t ∈ schTypeList (some ty) ↔
        (t ∈ ["string", "number"] ∧ t ∈ ["number"])) ∧
    mergeTypes numSchema intSchema ⟨some true, true⟩ = .inl (.single "integer") ∧
    mergeSchemas 1 ⟨some true, true⟩ strSchema numSchema =
      some (.inr [{ message := "No valid types satisfy both schemas", path := ["merge"] }]) := by
  refine ⟨?_, ?_, ?_⟩
  · exact (c5_conjunction_type_merge (Schema.mk { type := some (.multi ["string", "number"]) })
      (Schema.mk { type := some (.multi ["number"]) }) 0).1 (by decide)
  · exact (c5_conjunction_type_merge numSchema intSchema 0).2.1 (by decide) (by decide) (by decide)
  · exact ((c5_conjunction_type_merge strSchema numSchema 0).2.2 (by decide)
      (by decide)).2 (.single "string") (.single "number") rfl rfl (by decide)


/-! ## C4: `if`-condition evaluation mutates the value -/

theorem lookup_cons_val (a k : String) (v : Val) (es : List (String × Val)) :
    List.lookup a ((k, v) :: es) = if a == k then some v else es.lookup a := by
  cases hc : a == k with
  | true => simp [List.lookup, hc]
  | false => simp [List.lookup, hc]

theorem lookup_map_update_self (k : String) (v : Val) :
    ∀ (fs : List (String × Val)), (fs.lookup k).isSome →
      ((fs.map fun q => if q.1 = k then (q.1, v) else q).lookup k) = some v := by
  intro fs
  induction fs with
  | nil => intro h; simp [List.lookup] at h
  | cons q fs ih =>
    obtain ⟨qk, qv⟩ := q
    intro h
    by_cases hq : qk = k
    · simp only [List.map_cons, if_pos hq]
      rw [lookup_cons_val, if_pos (by simp only [beq_iff_eq]; exact hq.symm)]
    · simp only [List.map_cons, if_neg hq]
      rw [lookup_cons_val, if_neg (by simp only [beq_iff_eq]; exact fun he => hq he.symm)]
      refine ih ?_
      rw [lookup_cons_val,
        if_neg (by simp only [beq_iff_eq]; exact fun he => hq he.symm)] at h
      exact h

theorem lookup_map_update_ne (k : String) (v : Val) (p : String) (h : k ≠ p) :
    ∀ (fs : List (String × Val)),
      ((fs.map fun q => if q.1 = k then (q.1, v) else q).lookup p) = fs.lookup p := by
  intro fs
  induction fs with
  | nil => rfl
  | cons q fs ih =>
    obtain ⟨qk, qv⟩ := q
    by_cases hpq : p = qk
    · have hqk : qk ≠ k := fun he => h (hpq.trans he).symm
      simp only [List.map_cons, if_neg hqk]
      rw [lookup_cons_val, lookup_cons_val,
        if_pos (by simp only [beq_iff_eq]; exact hpq),
        if_pos (by simp only [beq_iff_eq]; exact hpq)]
    · by_cases hq : qk = k
      · simp only [List.map_cons, if_pos hq]
        rw [lookup_cons_val, lookup_cons_val,
          if_neg (by simp only [beq_iff_eq]; exact hpq),
          if_neg (by simp only [beq_iff_eq]; exact hpq), ih]
      · simp only [List.map_cons, if_neg hq]
        rw [lookup_cons_val, lookup_cons_val,
          if_neg (by simp only [beq_iff_eq]; exact hpq),
          if_neg (by simp only [beq_iff_eq]; exact hpq), ih]

theorem lookup_append_single_self (k : String) (v : Val) :
    ∀ (fs : List (String × Val)), fs.lookup k = none →
      ((fs ++ [(k, v)]).lookup k) = some v := by
  intro fs
  induction fs with
  | nil =>
    intro _
    show List.lookup k [(k, v)] = some v
    rw [lookup_cons_val, if_pos (by simp)]
  | cons q fs ih =>
    obtain ⟨qk, qv⟩ := q
    intro h
    rw [lookup_cons_val] at h
    cases hc : (k == qk) with
    | true => rw [if_pos hc] at h; exact absurd h (by simp)
    | false =>
      rw [if_neg (by simp [hc])] at h
      show List.lookup k ((qk, qv) :: (fs ++ [(k, v)])) = some v
      rw [lookup_cons_val, if_neg (by simp [hc]), ih h]

theorem lookup_append_single_ne (k : String) (v : Val) (p : String) (h : k ≠ p) :
    ∀ (fs : List (String × Val)), ((fs ++ [(k, v)]).lookup p) = fs.lookup p := by
  intro fs
  induction fs with
  | nil =>
    show List.lookup p [(k, v)] = none
    rw [lookup_cons_val, if_neg (by simp only [beq_iff_eq]; exact fun he => h he.symm)]
    rfl
  | cons q fs ih =>
    obtain ⟨qk, qv⟩ := q
    show List.lookup p ((qk, qv) :: (fs ++ [(k, v)])) = List.lookup p ((qk, qv) :: fs)
    rw [lookup_cons_val, lookup_cons_val, ih]

theorem lookup_objSet_self (fs : List (String × Val)) (k : String) (v : Val) :
    (objSet fs k v).lookup k = some v := by
  unfold objSet
  by_cases h : (fs.lookup k).isSome
  · rw [if_pos h]
    exact lookup_map_update_self k v fs h
  · rw [if_neg h]
    exact lookup_append_single_self k v fs (Option.not_isSome_iff_eq_none.mp h)

theorem lookup_objSet_ne (fs : List (String × Val)) (k : String) (v : Val)
    (p : String) (h : k ≠ p) : (objSet fs k v).lookup p = fs.lookup p := by
  unfold objSet
  by_cases hs : (fs.lookup k).isSome
  · rw [if_pos hs]
    exact lookup_map_update_ne k v p h fs
  · rw [if_neg hs]
    exact lookup_append_single_ne k v p h fs

theorem writeBack_obj_lookup (fs : List (String × Val)) (k : String)
    (old nc : Option Val) (p : String) (h : k ≠ p) :
    ∃ fs2, writeBack (some (.obj fs)) k old nc = some (.obj fs2) ∧
      fs2.lookup p = fs.lookup p := by
  cases old with
  | none => exact ⟨fs, rfl, rfl⟩
  | some o =>
    cases nc with
    | none => exact ⟨fs, rfl, rfl⟩
    | some c => exact ⟨objSet fs k c, rfl, lookup_objSet_ne fs k c p h⟩

theorem evalCondPropsLoop_preserves (p : String) (d : Val) :
    ∀ (props : List (String × Schema)) (n : Nat) (parent ifS : Schema) (opts : Opts)
      (fs : List (String × Val)) (st : RState) (out : Bool × Option Val × RState),
      p ∉ props.map Prod.fst →
      fs.lookup p = some d →
      evalCondPropsLoop n props parent ifS opts (some (.obj fs)) st = some out →
      jsGet out.2.1 p = some d := by
  intro props
  induction props with
  | nil =>
    intro n parent ifS opts fs st out hnp hlk h
    cases n with
    | zero => simp [evalCondPropsLoop, funsAt, noFuns] at h
    | succ k =>
      rw [evalCondPropsLoop_succ] at h
      rw [show evalCondPropsLoopF k (funsAt k) [] parent ifS opts (some (.obj fs)) st
          = some (true, some (.obj fs), st) from rfl] at h
      cases h
      exact hlk
  | cons pc rest ih =>
    obtain ⟨prop, cond⟩ := pc
    intro n parent ifS opts fs st out hnp hlk h
    have hne : prop ≠ p := by
      intro he
      exact hnp (by simp [he])
    have hrest : p ∉ rest.map Prod.fst := by
      intro hm
      exact hnp (by simp [hm])
    cases n with
    | zero => simp [evalCondPropsLoop, funsAt, noFuns] at h
    | succ k =>
      rw [evalCondPropsLoop_succ] at h
      simp only [evalCondPropsLoopF, jsGet] at h
      cases hpv : List.lookup prop fs with
      | none =>
        rw [hpv] at h
        cases hcd : cond.c.default with
        | none =>
          rw [hcd] at h
          dsimp only at h
          cases h
          exact hlk
        | some d2 =>
          rw [hcd] at h
          simp only [jsSetField, Option.map_some'] at h
          cases hms : mergeS k { mergeType := some false, isAllOf := false }
              ((List.lookup prop (parent.c.properties.getD [])).getD Schema.empty) cond with
          | none => rw [hms] at h; simp at h
          | some propSchema =>
            rw [hms] at h
            simp only [Option.bind_eq_bind, Option.some_bind] at h
            cases hrv : (funsAt k).internalResolveValues propSchema none ifS (some prop)
                { skipValidation := true, skipConditional := true } (pushStack st prop) with
            | none => rw [hrv] at h; simp at h
            | some rv =>
              rw [hrv] at h
              simp only [Option.bind_eq_bind, Option.some_bind] at h
              rw [show writeBack (some (Val.obj (objSet fs prop d2))) prop none rv.vin
                  = some (Val.obj (objSet fs prop d2)) from rfl] at h
              cases hr : rv.r with
              | failure es =>
                rw [hr] at h
                cases h
                show (objSet fs prop d2).lookup p = some d
                rw [lookup_objSet_ne fs prop d2 p hne, hlk]
              | success v =>
                rw [hr, at_evalCondPropsLoop] at h
                exact ih k parent ifS opts (objSet fs prop d2) (popStack rv.st) out hrest
                  (by rw [lookup_objSet_ne fs prop d2 p hne]; exact hlk) h
      | some pv =>
        rw [hpv] at h
        dsimp only at h
        cases hms : mergeS k { mergeType := some false, isAllOf := false }
            ((List.lookup prop (parent.c.properties.getD [])).getD Schema.empty) cond with
        | none => rw [hms] at h; simp at h
        | some propSchema =>
          rw [hms] at h
          simp only [Option.bind_eq_bind, Option.some_bind] at h
          cases hrv : (funsAt k).internalResolveValues propSchema (some pv) ifS (some prop)
              { skipValidation := true, skipConditional := true } (pushStack st prop) with
          | none => rw [hrv] at h; simp at h
          | some rv =>
            rw [hrv] at h
            simp only [Option.bind_eq_bind, Option.some_bind] at h
            obtain ⟨fs2, hwb, hlk2⟩ := writeBack_obj_lookup fs prop (some pv) rv.vin p hne
            rw [hwb] at h
            cases hr : rv.r with
            | failure es =>
              rw [hr] at h
              cases h
              show fs2.lookup p = some d
              rw [hlk2, hlk]
            | success v =>
              rw [hr, at_evalCondPropsLoop] at h
              exact ih k parent ifS opts fs2 (popStack rv.st) out hrest
                (by rw [hlk2]; exact hlk) h

set_option maxHeartbeats 1600000 in
/-- C4, counterexample: the claim says evaluating an `if` condition
never applies defaults to or otherwise modifies the value. Evaluating
the condition `{properties:{x:{const:'a', default:'a'}}}` against the
empty object returns the mutated value `{x:'a'}` (the condition default
was written into the value during the probe), and the injected property
is visible in the final output of `resolveValues` on a schema whose
`then` branch never mentions `x`. -/
theorem c4_condition_probe_mutates :
    evaluateCondition 10 c4If (some (.obj [])) Schema.empty none {} {} =
      some (true, some (.obj [("x", .str "a")]), {}) ∧
    (some (.obj [("x", .str "a")]) : Option Val) ≠ some (.obj []) ∧
    resolveValues 25 c4Pipeline (some (.obj [])) =
      some (.ok (some (.obj [("x", .str "a"), ("y", .str "z")]))) := by
  refine ⟨by rfl, by simp, by rfl⟩

/-- C4 (amended): evaluating an `if` condition is not a pure probe.
When the condition lists a property that is missing from the (object)
value and that carries a `default`, `evaluateCondition` writes the
default into the value it hands back, so the injected default flows
into the subsequent resolution of the merged base+then/else schema:
whatever the probe verdict and whatever the remaining condition
properties do, the returned value carries the injected default. -/
theorem c4_condition_default_injection
    (n : Nat) (ifSchema parent : Schema) (key : Option String) (opts : Opts)
    (p : String) (cond : Schema) (rest : List (String × Schema)) (d : Val)
    (fs : List (String × Val)) (st : RState) (out : Bool × Option Val × RState)
    (hcon : ifSchema.c.contains = none)
    (hit : ifSchema.c.items = none)
    (hpr : ifSchema.c.properties = some ((p, cond) :: rest))
    (hmiss : fs.lookup p = none)
    (hdef : cond.c.default = some d)
    (hrest : p ∉ rest.map Prod.fst)
    (h : evaluateCondition n ifSchema (some (.obj fs)) parent key opts st = some out) :
    jsGet out.2.1 p = some d := by
  cases n with
  | zero => simp [evaluateCondition, funsAt, noFuns] at h
  | succ k =>
    rw [evaluateCondition_succ] at h
    simp only [evaluateConditionF, hcon, hit, hpr, isObjectV] at h
    rw [at_evalCondPropsLoop] at h
    cases k with
    | zero => simp [evalCondPropsLoop, funsAt, noFuns] at h
    | succ j =>
      rw [evalCondPropsLoop_succ] at h
      simp only [evalCondPropsLoopF, jsGet] at h
      rw [hmiss, hdef] at h
      simp only [jsSetField, Option.map_some'] at h
      cases hms : mergeS j { mergeType := some false, isAllOf := false }
          ((List.lookup p (parent.c.properties.getD [])).getD Schema.empty) cond with
      | none => rw [hms] at h; simp at h
      | some propSchema =>
        rw [hms] at h
        simp only [Option.bind_eq_bind, Option.some_bind] at h
        cases hrv : (funsAt j).internalResolveValues propSchema none ifSchema (some p)
            { skipValidation := true, skipConditional := true } (pushStack st p) with
        | none => rw [hrv] at h; simp at h
        | some rv =>
          rw [hrv] at h
          simp only [Option.bind_eq_bind, Option.some_bind] at h
          rw [show writeBack (some (Val.obj (objSet fs p d))) p none rv.vin
              = some (Val.obj (objSet fs p d)) from rfl] at h
          cases hr : rv.r with
          | failure es =>
            rw [hr] at h
            cases h
            show (objSet fs p d).lookup p = some d
            exact lookup_objSet_self fs p d
          | success v =>
            rw [hr, at_evalCondPropsLoop] at h
            exact evalCondPropsLoop_preserves p d rest j parent ifSchema opts
              (objSet fs p d) (popStack rv.st) out hrest (lookup_objSet_self fs p d) h

set_option maxHeartbeats 1600000 in
/-- C4, witness for the amended theorem: the injection at the concrete
condition `{properties:{x:{const:'a', default:'a'}}}` probed against
the empty object. -/
theorem c4_condition_default_injection_witness :
    jsGet (true, some (Val.obj [("x", Val.str "a")]),
      ({} : RState)).2.1 "x" = some (.str "a") :=
  c4_condition_default_injection 10 c4If Schema.empty none {} "x"
    (Schema.mk { constV := some (.str "a"), default := some (.str "a") }) [] (.str "a")
    [] {} (true, some (.obj [("x", .str "a")]), {})
    rfl rfl rfl rfl rfl (by simp) (by rfl)


/-! ## C7: tuple items and additionalItems -/

theorem tupleItemsLoop_drops_extras (tup : List Schema) (schema : Schema) :
    ∀ (idxs : List Nat) (n : Nat) (values : Option Val) (opts : Opts) (st : RState)
      (result : List (Option Val)) (errors : List VErr),
      (∀ i ∈ idxs, tup.length ≤ i) → idxs.length < n →
      tupleItemsLoop n tup none schema values idxs opts st result errors =
        some (result, errors, values, st) := by
  intro idxs
  induction idxs with
  | nil =>
    intro n values opts st result errors hall hn
    cases n with
    | zero => exact absurd hn (by omega)
    | succ k =>
      rw [tupleItemsLoop_succ]
      rfl
  | cons i idxs ih =>
    intro n values opts st result errors hall hn
    cases n with
    | zero => exact absurd hn (by omega)
    | succ k =>
      rw [tupleItemsLoop_succ]
      have hge : ¬ i < tup.length := by
        have := hall i (by simp)
        omega
      simp only [tupleItemsLoopF, dif_neg hge]
      rw [at_tupleItemsLoop]
      exact ih k values opts st result errors (fun x hx => hall x (by simp [hx])) (by
        simp only [List.length_cons] at hn
        omega)

set_option maxHeartbeats 1600000 in
/-- C7, counterexample: the claim says that with absent (or `true`)
`additionalItems` the elements past the tuple pass through unresolved
into the result. Resolving `['a','b']` against
`{type:'array', items:[{type:'string'}]}` yields `['a']`: the extra
element is dropped, not passed through. -/
theorem c7_extras_not_passed_through :
    resolveValues 25 (c7Tuple none) c7Value = some (.ok (some (.arr [.str "a"]))) ∧
    Val.arr [.str "a"] ≠ Val.arr [.str "a", .str "b"] := by
  refine ⟨by rfl, by simp⟩

set_option maxHeartbeats 1600000 in
/-- C7 (amended): with a tuple `items`, each positional element
resolves against the schema at the same index; past the tuple,
`additionalItems:false` stops resolution with the hard failure
`Additional items not allowed`; an `additionalItems` schema (or
`true`) is recursed into for validation — a failing extra element
fails the resolution — but a passing extra element is dropped from the
result; absent `additionalItems` skips the extra elements entirely
(the loop leaves result, errors, value and state unchanged on every
index past the tuple). In no case do the extra elements pass through
into the resolved array. -/
theorem c7_tuple_additional_items :
    resolveValues 25 (c7Tuple none) c7Value = some (.ok (some (.arr [.str "a"]))) ∧
    resolveValues 25 (c7Tuple (some (.inl true))) c7Value =
      some (.ok (some (.arr [.str "a"]))) ∧
    resolveValues 25 (c7Tuple (some (.inr strSchema))) c7Value =
      some (.ok (some (.arr [.str "a"]))) ∧
    resolveValues 25 (c7Tuple (some (.inl false))) c7Value =
      some (.err [{ message := "Additional items not allowed", path := [] }]) ∧
    resolveValues 25 (c7Tuple (some (.inr numSchema))) c7Value =
      some (.err [{ message := "Value must be a number", path := ["items"] }]) ∧
    (∀ (tup : List Schema) (schema : Schema) (idxs : List Nat) (n : Nat)
      (values : Option Val) (opts : Opts) (st : RState)
      (result : List (Option Val)) (errors : List VErr),
      (∀ i ∈ idxs, tup.length ≤ i) → idxs.length < n →
      tupleItemsLoop n tup none schema values idxs opts st result errors =
        some (result, errors, values, st)) :=
  ⟨by rfl, by rfl, by rfl, by rfl, by rfl,
   fun tup schema => tupleItemsLoop_drops_extras tup schema⟩

/-- C7, witness: the drop lemma applied at a concrete loop state — two
indices past a one-schema tuple leave everything unchanged. -/
theorem c7_tuple_additional_items_witness :
    tupleItemsLoop 3 [strSchema] none Schema.empty
      (some (.arr [.str "a", .str "b"])) [1, 2] {} {} [] [] =
      some ([], [], some (.arr [.str "a", .str "b"]), {}) :=
  c7_tuple_additional_items.2.2.2.2.2 [strSchema] Schema.empty [1, 2] 3
    (some (.arr [.str "a", .str "b"])) {} {} [] [] (by decide) (by decide)


/-! ## C6: anyOf resolution -/

set_option maxHeartbeats 1600000 in
/-- C6, counterexample: the claim says that on the first passing anyOf
branch the original value is returned as resolved, without mutation
from the passing branch. Resolving `{}` against
`{anyOf:[{type:'object', properties:{p:{type:'string', default:'d'}}}]}`
returns `{p:'d'}` — the single-element anyOf is merged into the base
schema and its resolved output (with the branch default injected) is
returned, not the original value. -/
theorem c6_anyOf_counterexample :
    resolveValues 25 c6Single (some (.obj [])) =
      some (.ok (some (.obj [("p", .str "d")]))) ∧
    (some (.obj [("p", .str "d")]) : Option Val) ≠ some (.obj []) := by
  refine ⟨by rfl, by simp⟩

set_option maxHeartbeats 1600000 in
/-- C6 (amended): an anyOf with two or more branches probes each
branch (merged over the base without its anyOf) in declaration order;
on the first success `resolveAnyOf` returns the input value as it
stands after the probes — in-place mutations made by probing are
retained and the passing branch's resolved output is discarded; a
single-element anyOf instead merges the branch into the base and
returns its fully resolved output; if no branch passes, the schema's
default is returned when present, and otherwise resolution fails with
the aggregate `Value must match at least one schema in anyOf` error,
the collected per-branch errors reaching the top-level error list
through the error accumulator. -/
theorem c6_anyOf_first_match :
    (∀ (m : Nat) (A : Schema) (subs : List Schema) (parent : Schema) (key : Option String)
      (opts : Opts) (V vA vinA : Option Val) (aliA : Bool) (st stA : RState) (mA : Schema),
      mergeS (m + 1) {} A Schema.empty = some mA →
      internalResolveValues (m + 1) mA V parent (some "anyOf") opts st =
        some ⟨.success vA, vinA, aliA, stA⟩ →
      resolveAnyOf (m + 3) (anyOfSchema (A :: subs)) V parent key opts st =
        some ⟨.success vinA, vinA, true, stA⟩) ∧
    (∀ (m : Nat) (A B : Schema) (parent : Schema) (key : Option String) (opts : Opts)
      (V vinA vinB : Option Val) (aliA aliB : Bool) (st stA stB : RState) (mA mB : Schema)
      (eA eB : List VErr),
      mergeS (m + 2) {} A Schema.empty = some mA →
      internalResolveValues (m + 2) mA V parent (some "anyOf") opts st =
        some ⟨.failure eA, vinA, aliA, stA⟩ →
      mergeS (m + 1) {} B Schema.empty = some mB →
      internalResolveValues (m + 1) mB vinA parent (some "anyOf") opts stA =
        some ⟨.failure eB, vinB, aliB, stB⟩ →
      resolveAnyOf (m + 4) (anyOfSchema [A, B]) V parent key opts st =
        some ⟨(mkFailure [{ message := "Value must match at least one schema in anyOf" }] stB).1,
          vinB, false,
          (mkFailure [{ message := "Value must match at least one schema in anyOf" }] stB).2⟩) ∧
    resolveValues 25 c6Mut (some (.obj [])) =
      some (.ok (some (.obj [("p", .str "d")]))) ∧
    resolveValues 25 c6Default (some (.num 5)) = some (.ok (some (.num 7))) ∧
    resolveValues 25 c6NoPass (some (.num 5)) = some (.err
      [{ message := "Value must be a string", path := ["anyOf"] },
       { message := "Value must be a boolean", path := ["anyOf"] },
       { message := "Value must match at least one schema in anyOf", path := ["anyOf"] }]) := by
  refine ⟨?_, ?_, by rfl, by rfl, by rfl⟩
  · intro m A subs parent key opts V vA vinA aliA st stA mA hMA hA
    rw [show m + 3 = m + 2 + 1 from rfl, resolveAnyOf_succ]
    simp only [resolveAnyOfF]
    rw [at_resolveAnyOfLoop, show m + 2 = m + 1 + 1 from rfl, resolveAnyOfLoop_succ]
    simp only [resolveAnyOfLoopF]
    rw [show Schema.mk { (anyOfSchema (A :: subs)).c with anyOf := none } = Schema.empty
        from rfl] at *
    simp only [anyOfSchema, Schema.c]
    rw [hMA]
    simp only [Option.bind_eq_bind, Option.some_bind]
    rw [at_internal, hA]
    simp only [Option.bind_eq_bind, Option.some_bind]
  · intro m A B parent key opts V vinA vinB aliA aliB st stA stB mA mB eA eB hMA hA hMB hB
    rw [show m + 4 = m + 3 + 1 from rfl, resolveAnyOf_succ]
    simp only [resolveAnyOfF]
    rw [at_resolveAnyOfLoop, show m + 3 = m + 2 + 1 from rfl, resolveAnyOfLoop_succ]
    simp only [resolveAnyOfLoopF]
    rw [show Schema.mk { (anyOfSchema [A, B]).c with anyOf := none } = Schema.empty
        from rfl] at *
    simp only [anyOfSchema, Schema.c]
    rw [hMA]
    simp only [Option.bind_eq_bind, Option.some_bind]
    rw [at_internal, hA]
    simp only [Option.bind_eq_bind, Option.some_bind]
    rw [at_resolveAnyOfLoop, show m + 2 = m + 1 + 1 from rfl, resolveAnyOfLoop_succ]
    simp only [resolveAnyOfLoopF]
    rw [hMB]
    simp only [Option.bind_eq_bind, Option.some_bind]
    rw [at_internal, hB]
    simp only [Option.bind_eq_bind, Option.some_bind]
    rw [at_resolveAnyOfLoop, resolveAnyOfLoop_succ]
    rfl

set_option maxHeartbeats 1600000 in
/-- C6, witness: the first-success rule at a singleton empty branch
(the probed input comes back), and the aggregate failure at
`{anyOf:[{type:'string'}, {type:'boolean'}]}` probed with `5`. -/
theorem c6_anyOf_first_match_witness :
    resolveAnyOf 4 (anyOfSchema [Schema.empty]) (some (.num 5)) Schema.empty none {} {} =
      some ⟨.success (some (.num 5)), some (.num 5), true, {}⟩ ∧
    resolveAnyOf 5 (anyOfSchema [strSchema, boolSchema]) (some (.num 5))
        Schema.empty none {} {} =
      some ⟨(mkFailure [{ message := "Value must match at least one schema in anyOf" }]
          { stack := [], errors := [{ message := "Value must be a string", path := [] },
              { message := "Value must be a boolean", path := [] }],
            negationDepth := 0, resolvedType := true }).1,
        some (.num 5), false,
        (mkFailure [{ message := "Value must match at least one schema in anyOf" }]
          { stack := [], errors := [{ message := "Value must be a string", path := [] },
              { message := "Value must be a boolean", path := [] }],
            negationDepth := 0, resolvedType := true }).2⟩ := by
  refine ⟨?_, ?_⟩
  · exact c6_anyOf_first_match.1 1 Schema.empty [] Schema.empty none {} (some (.num 5))
      (some (.num 5)) (some (.num 5)) true {} {} Schema.empty (by rfl) (by rfl)
  · exact c6_anyOf_first_match.2.1 1 strSchema boolSchema Schema.empty none {}
      (some (.num 5)) (some (.num 5)) (some (.num 5)) false false {}
      { stack := [], errors := [{ message := "Value must be a string", path := [] }],
        negationDepth := 0, resolvedType := true }
      { stack := [], errors := [{ message := "Value must be a string", path := [] },
          { message := "Value must be a boolean", path := [] }],
        negationDepth := 0, resolvedType := true }
      strSchema boolSchema
      [{ message := "Value must be a string", path := [] }]
      [{ message := "Value must be a boolean", path := [] }]
      (by rfl) (by rfl) (by rfl) (by rfl)


/-! ## C3: not/required exclusivity -/

/-- `resolveValue` on a schema with only `properties` and a direct
`not` hands off to `resolveNot`. -/
theorem resolveValue_directNot (n : Nat) (P : List (String × Schema)) (ps : List String)
    (value : Option Val) (parent : Schema) (key : Option String) (st : RState) :
    resolveValue (n + 1) (directNotSchema P ps) value parent key {} st =
      resolveNot n (directNotSchema P ps) value parent key {} st := by
  rw [resolveValue_succ]
  simp only [resolveValueF, directNotSchema, Schema.c, notRequiredOf]
  simp only [Option.isSome_some, Bool.not_false, Bool.and_self, if_true]
  simp only [pure_bind, bind_pure]
  rw [at_resolveNot]

/-- Resolving the bare `{required: ps}` node against a defined value
that carries every listed property succeeds with the value itself. -/
theorem internal_notRequired_success (n : Nat) (ps : List String) (value : Option Val)
    (parent : Schema) (key : Option String) (st : RState)
    (hv : jsNotNullish value = true)
    (hall : ∀ q ∈ ps, (jsGet value q).isSome = true) :
    internalResolveValues (n + 2) (notRequiredOf ps) value parent key {} st =
      some ⟨.success value, value, true, st⟩ := by
  rw [show n + 2 = n + 1 + 1 from rfl, internal_succ]
  simp only [internalResolveValuesF]
  rw [at_resolveValue, resolveValue_succ]
  simp only [resolveValueF, notRequiredOf, Schema.c, hv]
  simp only [Option.isSome_none, Bool.false_and, Bool.and_false, Bool.not_false, Bool.not_true,
    Bool.or_self, Bool.false_or, Bool.and_self, Bool.and_true, if_true, if_false,
    Bool.false_eq_true, pure_bind, bind_pure]
  have hfil : List.filter (fun prop => (jsGet value prop).isNone &&
      ((List.lookup prop ((none : Option (List (String × Schema))).getD [])).bind fun a =>
        (match a with | Schema.mk core => core).default).isNone) ps = ([] : List String) := by
    refine List.filter_eq_nil_iff.mpr ?_
    intro q hq
    have h := hall q hq
    cases hjg : jsGet value q with
    | none => rw [hjg] at h; exact absurd h (by simp)
    | some w => simp [hjg]
  rw [hfil]
  simp only [List.length_nil, List.map_nil, List.foldl_nil, Nat.lt_irrefl, if_false, ite_self,
    pure_bind, bind_pure, truthyObjectLike, isComposition, notRequiredOf, Schema.c,
    Option.isSome_none, Bool.and_false, Bool.false_and, Bool.or_self, Bool.false_or,
    Bool.false_eq_true, if_true, Bool.and_true, Bool.and_self]
  rfl

set_option maxHeartbeats 1600000 in
/-- C3: confirmed. The concrete spec scenario
`{properties:{a,b}, allOf:[{not:{required:['a','b']}}]}` accepts
`{a:'x'}` and rejects `{a:'x', b:'y'}` with the `not` violation; in
general, a direct `{not:{required: ps}}` beside arbitrary `properties`
fails resolution whenever the (defined) value carries every property
of `ps` — having all of them is the failure condition — and a
one-element `allOf` member reduces to resolution of the member merged
into the base, which carries the member `not` down one nesting level. -/
theorem c3_not_required_exclusivity :
    resolveValues 25 c3Schema (some (.obj [("a", .str "x")])) =
      some (.ok (some (.obj [("a", .str "x")]))) ∧
    resolveValues 25 c3Schema (some (.obj [("a", .str "x"), ("b", .str "y")])) =
      some (.err [{ message := "Value must not match schema", path := ["not"] }]) ∧
    (∀ (m : Nat) (P : List (String × Schema)) (ps : List String) (value : Option Val),
      jsNotNullish value = true →
      (∀ q ∈ ps, (jsGet value q).isSome = true) →
      resolveValues (m + 5) (directNotSchema P ps) value = some (.err
        [{ message := "Value must not match schema", path := ["not"] },
         { message := "Unsupported type: undefined", path := [] }])) ∧
    (∀ (n : Nat) (schema a0 merged : Schema) (value : Option Val) (parent : Schema)
      (key : Option String) (opts : Opts) (st : RState),
      schema.c.allOf = some [a0] →
      mergeS (n + 1) {} (Schema.mk { schema.c with allOf := none }) a0 = some merged →
      resolveValue (n + 2) schema value parent key opts st =
        internalResolveValues (n + 1) merged value parent key opts st) := by
  refine ⟨by rfl, by rfl, ?_, ?_⟩
  · intro m P ps value hv hall
    have hnot : resolveNot (m + 3) (directNotSchema P ps) value (directNotSchema P ps)
        none {} {} = some
        ⟨.failure [{ message := "Value must not match schema", path := ["not"] }],
         value, false,
         { stack := [],
           errors := [{ message := "Value must not match schema", path := ["not"] }],
           negationDepth := 0, resolvedType := false }⟩ := by
      rw [show m + 3 = m + 2 + 1 from rfl, resolveNot_succ]
      simp only [resolveNotF, directNotSchema, Schema.c]
      rw [at_internal,
        internal_notRequired_success m ps value _ (some "not") _ hv hall]
      simp only [Option.bind_eq_bind, Option.some_bind]
      rfl
    have hdisp : resolveTypeDispatch (m + 4) (directNotSchema P ps) value
        (directNotSchema P ps) none {}
        { stack := [],
          errors := [{ message := "Value must not match schema", path := ["not"] }],
          negationDepth := 0, resolvedType := false } =
        some
        ⟨.failure [{ message := "Unsupported type: undefined", path := [] }],
         value, false,
         { stack := [],
           errors := [{ message := "Value must not match schema", path := ["not"] },
                      { message := "Unsupported type: undefined", path := [] }],
           negationDepth := 0, resolvedType := true }⟩ := by
      rw [show m + 4 = m + 3 + 1 from rfl, resolveTypeDispatch_succ]
      simp only [resolveTypeDispatchF, directNotSchema, Schema.c]
      rfl
    simp only [resolveValues]
    rw [show m + 5 = m + 4 + 1 from rfl, internal_succ]
    simp only [internalResolveValuesF]
    rw [at_resolveValue, show m + 4 = m + 3 + 1 from rfl, resolveValue_directNot, hnot]
    simp only [Option.bind_eq_bind, Option.some_bind]
    rw [at_resolveTypeDispatch, hdisp]
    simp only [Option.bind_eq_bind, Option.some_bind]
    rfl
  · intro n schema a0 merged value parent key opts st h1 hm
    rw [show n + 2 = n + 1 + 1 from rfl, resolveValue_succ]
    simp only [resolveValueF, h1]
    rw [hm]
    simp only [Option.bind_eq_bind, Option.some_bind, pure_bind, bind_pure]
    rw [at_internal]

set_option maxHeartbeats 1600000 in
/-- C3, witness: the direct form at `{not:{required:['a']}}` against
`{a:'x'}` (which carries the listed property and so fails), and the
one-element allOf reduction at an empty member. -/
theorem c3_not_required_exclusivity_witness :
    resolveValues 5 (directNotSchema [] ["a"]) (some (.obj [("a", .str "x")])) =
      some (.err [{ message := "Value must not match schema", path := ["not"] },
        { message := "Unsupported type: undefined", path := [] }]) ∧
    resolveValue 2 (Schema.mk { allOf := some [Schema.empty] }) none Schema.empty none {} {} =
      internalResolveValues 1 Schema.empty none Schema.empty none {} {} := by
  refine ⟨?_, ?_⟩
  · exact c3_not_required_exclusivity.2.2.1 0 [] ["a"] (some (.obj [("a", .str "x")]))
      (by rfl) (by decide)
  · exact c3_not_required_exclusivity.2.2.2 0 (Schema.mk { allOf := some [Schema.empty] })
      Schema.empty Schema.empty none Schema.empty none {} {} (by rfl) (by rfl)


/-! ## C2: oneOf exclusivity -/

/-- `resolveValue` on a two-branch oneOf hands off to the composition
stage. -/
theorem resolveValue_oneOfPair (n : Nat) (A B : Schema) (value : Option Val)
    (parent : Schema) (key : Option String) (opts : Opts) (st : RState) :
    resolveValue (n + 1) (oneOfPair A B) value parent key opts st =
      resolveComposition n (oneOfPair A B) value parent key opts st := by
  rw [resolveValue_succ]
  simp only [resolveValueF, oneOfPair, Schema.c]
  simp only [Option.isSome_none, Option.isSome_some, Bool.false_and, Bool.true_or,
    Bool.or_true, Bool.false_or, Bool.or_self, Bool.and_true, Bool.not_false, if_true,
    if_false, Bool.false_eq_true, pure_bind, bind_pure]
  rw [at_resolveComposition]

/-- `resolveComposition` on a two-branch oneOf brackets `resolveOneOf`
with the `oneOf` stack marker. -/
theorem resolveComposition_oneOfPair (n : Nat) (A B : Schema) (value : Option Val)
    (parent : Schema) (key : Option String) (opts : Opts) (st : RState) :
    resolveComposition (n + 1) (oneOfPair A B) value parent key opts st =
      Option.bind (resolveOneOf n (oneOfPair A B) value parent key opts (pushStack st "oneOf"))
        (fun rv => some { rv with st := popStack rv.st }) := by
  rw [resolveComposition_succ]
  simp only [resolveCompositionF, oneOfPair, Schema.c]
  simp only [Option.isSome_none, Option.isSome_some, if_true, if_false, Bool.false_eq_true,
    Option.bind_eq_bind]
  rw [at_resolveOneOf]

/-- The type dispatch on a oneOf-only schema fails with the missing
type error (total, whatever the arguments). -/
theorem resolveTypeDispatch_oneOfPair (n : Nat) (A B : Schema) (value : Option Val)
    (parent : Schema) (key : Option String) (opts : Opts) (st : RState) :
    resolveTypeDispatch (n + 1) (oneOfPair A B) value parent key opts st =
      some ⟨(mkFailure [{ message := "Unsupported type: undefined" }]
          { st with resolvedType := true }).1, value, false,
        (mkFailure [{ message := "Unsupported type: undefined" }]
          { st with resolvedType := true }).2⟩ := by
  rw [resolveTypeDispatch_succ]
  simp only [resolveTypeDispatchF, oneOfPair, Schema.c]
  rfl

set_option maxHeartbeats 1600000 in
/-- C2: confirmed. For `{oneOf:[A,B]}` with no default: when both
branches probe to success the oneOf resolution is the
`Value must match exactly one schema in oneOf` failure — and the whole
`resolveValues` call reports failure — even though each branch
individually succeeded; when exactly one branch passes, its result is
the success; when no branch passes, the result is again a failure. -/
theorem c2_oneOf_exclusivity :
    (∀ (m : Nat) (A B : Schema) (V vA vB vinA vinB : Option Val) (aliA aliB : Bool)
      (stA stB : RState) (mA mB : Schema),
      mergeS (m + 2) {} A Schema.empty = some mA →
      internalResolveValues (m + 2) mA V (oneOfPair A B) none {} oneOfSt =
        some ⟨.success vA, vinA, aliA, stA⟩ →
      mergeS (m + 1) {} B Schema.empty = some mB →
      internalResolveValues (m + 1) mB vinA (oneOfPair A B) none {} stA =
        some ⟨.success vB, vinB, aliB, stB⟩ →
      resolveOneOf (m + 4) (oneOfPair A B) V (oneOfPair A B) none {} oneOfSt =
        some ⟨(mkFailure [{ message := "Value must match exactly one schema in oneOf" }] stB).1,
          vinB, false,
          (mkFailure [{ message := "Value must match exactly one schema in oneOf" }] stB).2⟩ ∧
      (∃ E, resolveValues (m + 7) (oneOfPair A B) V = some (.err E))) ∧
    (∀ (m : Nat) (A B parent : Schema) (key : Option String) (opts : Opts)
      (V vA vinA vinB : Option Val) (aliA aliB : Bool) (st0 stA stB : RState) (mA mB : Schema)
      (eB : List VErr),
      mergeS (m + 2) {} A Schema.empty = some mA →
      internalResolveValues (m + 2) mA V parent key opts st0 =
        some ⟨.success vA, vinA, aliA, stA⟩ →
      mergeS (m + 1) {} B Schema.empty = some mB →
      internalResolveValues (m + 1) mB vinA parent key opts stA =
        some ⟨.failure eB, vinB, aliB, stB⟩ →
      resolveOneOf (m + 4) (oneOfPair A B) V parent key opts st0 =
        some ⟨.success vA, vinB, aliA, stB⟩) ∧
    (∀ (m : Nat) (A B parent : Schema) (key : Option String) (opts : Opts)
      (V vinA vinB : Option Val) (aliA aliB : Bool) (st0 stA stB : RState) (mA mB : Schema)
      (eA eB : List VErr),
      mergeS (m + 2) {} A Schema.empty = some mA →
      internalResolveValues (m + 2) mA V parent key opts st0 =
        some ⟨.failure eA, vinA, aliA, stA⟩ →
      mergeS (m + 1) {} B Schema.empty = some mB →
      internalResolveValues (m + 1) mB vinA parent key opts stA =
        some ⟨.failure eB, vinB, aliB, stB⟩ →
      ∃ es vin2 ali2 st2,
        resolveOneOf (m + 4) (oneOfPair A B) V parent key opts st0 =
          some ⟨.failure es, vin2, ali2, st2⟩) := by
  refine ⟨?_, ?_, ?_⟩
  · intro m A B V vA vB vinA vinB aliA aliB stA stB mA mB h1 h2 h3 h4
    have hone : resolveOneOf (m + 4) (oneOfPair A B) V (oneOfPair A B) none {} oneOfSt =
        some ⟨(mkFailure [{ message := "Value must match exactly one schema in oneOf" }] stB).1,
          vinB, false,
          (mkFailure [{ message := "Value must match exactly one schema in oneOf" }] stB).2⟩ := by
      simp only [oneOfPair] at h2 h4
      rw [show m + 4 = m + 3 + 1 from rfl, resolveOneOf_succ]
      simp only [resolveOneOfF]
      rw [show Schema.mk { (oneOfPair A B).c with oneOf := none } = Schema.empty from rfl] at *
      simp only [oneOfPair, Schema.c]
      rw [at_resolveOneOfLoop, show m + 3 = m + 2 + 1 from rfl, resolveOneOfLoop_succ]
      simp only [resolveOneOfLoopF]
      rw [h1]
      simp only [Option.bind_eq_bind, Option.some_bind]
      rw [at_internal, h2]
      simp only [Option.bind_eq_bind, Option.some_bind]
      rw [at_resolveOneOfLoop, show m + 2 = m + 1 + 1 from rfl, resolveOneOfLoop_succ]
      simp only [resolveOneOfLoopF]
      rw [h3]
      simp only [Option.bind_eq_bind, Option.some_bind]
      rw [at_internal, h4]
      simp only [Option.bind_eq_bind, Option.some_bind]
      rw [at_resolveOneOfLoop, resolveOneOfLoop_succ]
      rfl
    refine ⟨hone, ?_⟩
    simp only [resolveValues]
    rw [show m + 7 = m + 6 + 1 from rfl, internal_succ]
    simp only [internalResolveValuesF]
    rw [at_resolveValue, show m + 6 = m + 5 + 1 from rfl, resolveValue_oneOfPair,
      show m + 5 = m + 4 + 1 from rfl, resolveComposition_oneOfPair,
      show pushStack ({} : RState) "oneOf" = oneOfSt from rfl, hone]
    simp only [Option.bind_eq_bind, Option.some_bind]
    cases hb : (!(popStack (mkFailure
        [{ message := "Value must match exactly one schema in oneOf" }] stB).2).resolvedType &&
        !(popStack (mkFailure
        [{ message := "Value must match exactly one schema in oneOf" }] stB).2).stack.contains "not") with
    | false =>
      simp only [Bool.false_eq_true, if_false, Option.bind_eq_bind, Option.some_bind, pure_bind]
      exact ⟨_, rfl⟩
    | true =>
      simp only [if_true, Option.bind_eq_bind, Option.some_bind, pure_bind]
      rw [at_resolveTypeDispatch, show m + 6 = m + 5 + 1 from rfl, resolveTypeDispatch_oneOfPair]
      simp only [Option.bind_eq_bind, Option.some_bind, pure_bind]
      exact ⟨_, rfl⟩
  · intro m A B parent key opts V vA vinA vinB aliA aliB st0 stA stB mA mB eB h1 h2 h3 h4
    rw [show m + 4 = m + 3 + 1 from rfl, resolveOneOf_succ]
    simp only [resolveOneOfF]
    rw [show Schema.mk { (oneOfPair A B).c with oneOf := none } = Schema.empty from rfl] at *
    simp only [oneOfPair, Schema.c]
    rw [at_resolveOneOfLoop, show m + 3 = m + 2 + 1 from rfl, resolveOneOfLoop_succ]
    simp only [resolveOneOfLoopF]
    rw [h1]
    simp only [Option.bind_eq_bind, Option.some_bind]
    rw [at_internal, h2]
    simp only [Option.bind_eq_bind, Option.some_bind]
    rw [at_resolveOneOfLoop, show m + 2 = m + 1 + 1 from rfl, resolveOneOfLoop_succ]
    simp only [resolveOneOfLoopF]
    rw [h3]
    simp only [Option.bind_eq_bind, Option.some_bind]
    rw [at_internal, h4]
    simp only [Option.bind_eq_bind, Option.some_bind]
    rw [at_resolveOneOfLoop, resolveOneOfLoop_succ]
    rfl
  · intro m A B parent key opts V vinA vinB aliA aliB st0 stA stB mA mB eA eB h1 h2 h3 h4
    rw [show m + 4 = m + 3 + 1 from rfl, resolveOneOf_succ]
    simp only [resolveOneOfF]
    rw [show Schema.mk { (oneOfPair A B).c with oneOf := none } = Schema.empty from rfl] at *
    simp only [show (oneOfPair A B).c.oneOf = some [A, B] from rfl,
      show (oneOfPair A B).c.default = none from rfl]
    rw [at_resolveOneOfLoop, show m + 3 = m + 2 + 1 from rfl, resolveOneOfLoop_succ]
    simp only [resolveOneOfLoopF]
    rw [h1]
    simp only [Option.bind_eq_bind, Option.some_bind]
    rw [at_internal, h2]
    simp only [Option.bind_eq_bind, Option.some_bind]
    rw [at_resolveOneOfLoop, show m + 2 = m + 1 + 1 from rfl, resolveOneOfLoop_succ]
    simp only [resolveOneOfLoopF]
    rw [h3]
    simp only [Option.bind_eq_bind, Option.some_bind]
    rw [at_internal, h4]
    simp only [Option.bind_eq_bind, Option.some_bind]
    rw [at_resolveOneOfLoop, resolveOneOfLoop_succ]
    simp only [resolveOneOfLoopF, List.nil_append, List.singleton_append,
      Option.bind_eq_bind, Option.some_bind, List.filter_cons, List.filter_nil,
      Bool.false_eq_true, if_false]
    cases hf : List.find? (fun c => (jsKeys vinB).any fun p =>
        ((c.2.2.c.properties.getD []).lookup p).isSome)
        [((Res.failure eA : Res), aliA, A), ((Res.failure eB : Res), aliB, B)] with
    | none =>
      exact ⟨[{ message := "Value must match exactly one schema in oneOf", path := stB.stack ++ [] }],
        vinB, false,
        (mkFailure [{ message := "Value must match exactly one schema in oneOf" }] stB).2, rfl⟩
    | some c =>
      have hmem := List.mem_of_find?_eq_some hf
      rcases List.mem_pair.mp hmem with hc | hc
      · exact ⟨eA, vinB, false, stB, by rw [hc]⟩
      · exact ⟨eB, vinB, false, stB, by rw [hc]⟩

set_option maxHeartbeats 1600000 in
/-- C2, witness: the three branch counts at concrete schemas — both
empty branches pass `5` and the oneOf fails (also end to end through
`resolveValues`); with `number` against `string` exactly the first
branch passes and its result is the success; with `string` against
`boolean` no branch passes and the result is a failure. -/
theorem c2_oneOf_exclusivity_witness :
    (resolveOneOf 5 (oneOfPair Schema.empty Schema.empty) (some (.num 5))
        (oneOfPair Schema.empty Schema.empty) none {} oneOfSt =
      some ⟨(mkFailure [{ message := "Value must match exactly one schema in oneOf" }] oneOfSt).1,
        some (.num 5), false,
        (mkFailure [{ message := "Value must match exactly one schema in oneOf" }] oneOfSt).2⟩ ∧
     (∃ E, resolveValues 8 (oneOfPair Schema.empty Schema.empty) (some (.num 5)) =
        some (.err E))) ∧
    resolveOneOf 5 (oneOfPair numSchema strSchema) (some (.num 5)) Schema.empty none {} {} =
      some ⟨.success (some (.num 5)), some (.num 5), true,
        { stack := [], errors := [{ message := "Value must be a string", path := [] }],
          negationDepth := 0, resolvedType := true }⟩ ∧
    (∃ es vin2 ali2 st2, resolveOneOf 5 (oneOfPair strSchema boolSchema) (some (.num 5))
        Schema.empty none {} {} = some ⟨.failure es, vin2, ali2, st2⟩) := by
  refine ⟨?_, ?_, ?_⟩
  · exact c2_oneOf_exclusivity.1 1 Schema.empty Schema.empty (some (.num 5)) (some (.num 5))
      (some (.num 5)) (some (.num 5)) (some (.num 5)) true true oneOfSt oneOfSt
      Schema.empty Schema.empty (by rfl) (by rfl) (by rfl) (by rfl)
  · exact c2_oneOf_exclusivity.2.1 1 numSchema strSchema Schema.empty none {}
      (some (.num 5)) (some (.num 5)) (some (.num 5)) (some (.num 5)) true false {}
      { stack := [], errors := [], negationDepth := 0, resolvedType := true }
      { stack := [], errors := [{ message := "Value must be a string", path := [] }],
        negationDepth := 0, resolvedType := true }
      numSchema strSchema [{ message := "Value must be a string", path := [] }]
      (by rfl) (by rfl) (by rfl) (by rfl)
  · exact c2_oneOf_exclusivity.2.2 1 strSchema boolSchema Schema.empty none {}
      (some (.num 5)) (some (.num 5)) (some (.num 5)) false false {}
      { stack := [], errors := [{ message := "Value must be a string", path := [] }],
        negationDepth := 0, resolvedType := true }
      { stack := [], errors := [{ message := "Value must be a string", path := [] },
          { message := "Value must be a boolean", path := [] }],
        negationDepth := 0, resolvedType := true }
      strSchema boolSchema [{ message := "Value must be a string", path := [] }]
      [{ message := "Value must be a boolean", path := [] }]
      (by rfl) (by rfl) (by rfl) (by rfl)

end RSV
